import Mathlib

/-!
Verification of the OpenClaw client module (custom frame-based protocol, v3):
per-session stream reassembly, request correlation, reconnection policy and
event routing.  JavaScript strings are embedded as lists of characters
(`Str`), JS `Map`/`Set` as association lists / lists of keys, and the
event-handler side effects as explicit output-event lists.  All definitions
are direct translations of the corresponding functions of the source module.
-/

/-- A JS string, embedded as its list of UTF-16 code units (characters). -/
abbrev Str := List Char

/-! ### stripAnsi

The source removes control sequences by six sequential global regex
replacements.  Each replacement is embedded as a left-to-right scanner with
an explicit fuel argument (the scanner consumes at least one character per
step, so fuel = input length suffices). -/

/-- Characters matched by the regex class lbrack 0-9;? rbrack. -/
def isCsiBody (c : Char) : Bool := c.isDigit || c == ';' || c == '?'

/-- Pass 1 of stripAnsi: the regex ESC lbrack, then a run of digits/;/?,
then one ASCII letter (greedy run then letter; the classes are disjoint so
greedy scanning is exact). -/
def stripCsiGo : Nat → Str → Str
  | 0, s => s
  | _ + 1, [] => []
  | fuel + 1, c :: rest =>
    if c = '\x1b' then
      match rest with
      | '[' :: rest2 =>
        match rest2.dropWhile isCsiBody with
        | d :: rest3 => if d.isAlpha then stripCsiGo fuel rest3 else c :: stripCsiGo fuel rest
        | [] => c :: stripCsiGo fuel rest
      | _ => c :: stripCsiGo fuel rest
    else c :: stripCsiGo fuel rest

def stripCsi (s : Str) : Str := stripCsiGo s.length s

/-- The suffix after the first BEL character, when one occurs. -/
def splitAtFirstBel : Str → Option Str
  | [] => none
  | c :: rest => if c = '\x07' then some rest else splitAtFirstBel rest

/-- The suffix after the last ESC-backslash pair, when one occurs. -/
def afterLastEscBslashGo (acc : Option Str) : Str → Option Str
  | [] => acc
  | c :: rest =>
    if c = '\x1b' then
      match rest with
      | b :: rest2 =>
        if b = '\\' then afterLastEscBslashGo (some rest2) rest2
        else afterLastEscBslashGo acc (b :: rest2)
      | [] => acc
    else afterLastEscBslashGo acc rest
termination_by s => s.length
decreasing_by all_goals simp [List.length] <;> omega

/-- Pass 2 body: an OSC sequence ESC rbrack runs to the first BEL if one
exists (the greedy star cannot cross a BEL), otherwise backtracking ends the
match at the last ESC-backslash; otherwise there is no match. -/
def oscMatch (s : Str) : Option Str :=
  match splitAtFirstBel s with
  | some rest => some rest
  | none => afterLastEscBslashGo none s

def stripOscGo : Nat → Str → Str
  | 0, s => s
  | _ + 1, [] => []
  | fuel + 1, c :: rest =>
    if c = '\x1b' then
      match rest with
      | ']' :: rest2 =>
        match oscMatch rest2 with
        | some rest3 => stripOscGo fuel rest3
        | none => c :: stripOscGo fuel rest
      | _ => c :: stripOscGo fuel rest
    else c :: stripOscGo fuel rest

def stripOsc (s : Str) : Str := stripOscGo s.length s

/-- Pass 3: ESC, a charset designator ( ) #, and one of A-Z0-9. -/
def stripCharsetGo : Nat → Str → Str
  | 0, s => s
  | _ + 1, [] => []
  | fuel + 1, c :: rest =>
    if c = '\x1b' then
      match rest with
      | b :: d :: rest2 =>
        if (b = '(' ∨ b = ')' ∨ b = '#') ∧ (d.isUpper ∨ d.isDigit) then stripCharsetGo fuel rest2
        else c :: stripCharsetGo fuel rest
      | _ => c :: stripCharsetGo fuel rest
    else c :: stripCharsetGo fuel rest

def stripCharset (s : Str) : Str := stripCharsetGo s.length s

/-- Followers of a bare ESC removed by pass 4 (the i flag makes the letter
class both cases). -/
def isEscFollower (c : Char) : Bool :=
  c.isAlpha || c == '=' || c == '>' || c == '<' || c == '!' || c == '*' || c == '+' ||
    c == '-' || c == '/'

def stripEscSingleGo : Nat → Str → Str
  | 0, s => s
  | _ + 1, [] => []
  | fuel + 1, c :: rest =>
    if c = '\x1b' then
      match rest with
      | d :: rest2 =>
        if isEscFollower d then stripEscSingleGo fuel rest2
        else c :: stripEscSingleGo fuel rest
      | [] => c :: stripEscSingleGo fuel rest
    else c :: stripEscSingleGo fuel rest

def stripEscSingle (s : Str) : Str := stripEscSingleGo s.length s

/-- Pass 5: the 8-bit CSI introducer 0x9b, then digits/;/?, then a letter. -/
def stripCsi8Go : Nat → Str → Str
  | 0, s => s
  | _ + 1, [] => []
  | fuel + 1, c :: rest =>
    if c = '\x9b' then
      match rest.dropWhile isCsiBody with
      | d :: rest3 => if d.isAlpha then stripCsi8Go fuel rest3 else c :: stripCsi8Go fuel rest
      | [] => c :: stripCsi8Go fuel rest
    else c :: stripCsi8Go fuel rest

def stripCsi8 (s : Str) : Str := stripCsi8Go s.length s

/-- Pass 6: every BEL character is removed. -/
def stripBel (s : Str) : Str := s.filter (fun c => c ≠ '\x07')

/-- stripAnsi: the six replacement passes, applied in source order. -/
def stripAnsi (s : Str) : Str :=
  stripBel (stripCsi8 (stripEscSingle (stripCharset (stripOsc (stripCsi s)))))

/-- isHeartbeatContent: the upper-cased text contains one of the two
heartbeat sentinels. -/
def isHeartbeatContent (text : Str) : Prop :=
  "HEARTBEAT_OK".data <:+: text.map Char.toUpper ∨
    "HEARTBEAT.MD".data <:+: text.map Char.toUpper

instance (text : Str) : Decidable (isHeartbeatContent text) := by
  unfold isHeartbeatContent; infer_instance

/-- The fixed placeholder substituted for heartbeat payloads
(heavy black heart + variation selector 16). -/
def heartToken : Str := ['\u2764', '\uFE0F']

/-- Heartbeat substitution as applied at every merge/emit site. -/
def heartbeatSubst (s : Str) : Str := if isHeartbeatContent s then heartToken else s

/-! ### Per-session stream state and the merge pipeline -/

/-- The channel that owns a session stream state. -/
inductive StreamSource
  | chat
  | agent
deriving DecidableEq, Repr

/-- Delta vs cumulative fragment interpretation. -/
inductive StreamMode
  | delta
  | cumulative
deriving DecidableEq, Repr

/-- Per-session stream accumulation state (interface SessionStreamState). -/
structure SessionStreamState where
  source : Option StreamSource
  text : Str
  mode : Option StreamMode
  blockOffset : Nat
  started : Bool
  runId : Option Str
deriving DecidableEq, Repr

/-- createSessionStream. -/
def createSessionStream : SessionStreamState :=
  { source := none, text := [], mode := none, blockOffset := 0, started := false, runId := none }

/-- The synthetic block separator (two newlines). -/
def blockSeparator : Str := ['\n', '\n']

/-- Events emitted to subscribers.  Payload objects are embedded field by
field; an event's optional sessionKey mirrors the value passed at the emit
site. -/
structure MessageOut where
  msgId : Str
  role : Str
  content : Str
  thinking : Option Str
  timestampMs : Nat
  sessionKey : Option Str
deriving DecidableEq, Repr

structure ToolCallOut where
  toolCallId : Str
  name : Str
  phase : Str
  result : Option Str
  sessionKey : Option Str
deriving DecidableEq, Repr

inductive OutEvent
  | streamSessionKey (runId : Option Str) (sessionKey : Str)
  | streamStart (sessionKey : Str)
  | streamChunk (text : Str) (sessionKey : Str)
  | streamEnd (sessionKey : Option Str)
  | subagentDetected (sessionKey : Str)
  | messageEvt (m : MessageOut)
  | toolCallEvt (t : ToolCallOut)
  | agentStatusEvt
  | passthroughEvt (name : Str)
deriving DecidableEq, Repr

/-- The overlap scan of mergeIncoming's delta fallback: the JS loop
for i = maxOverlap down to 1, testing previous.endsWith(incoming.slice(0,i));
falling through to previous + incoming. -/
def overlapScan (previous incoming : Str) : Nat → Str
  | 0 => previous ++ incoming
  | i + 1 =>
    if incoming.take (i + 1) <:+ previous then previous ++ incoming.drop (i + 1)
    else overlapScan previous incoming i

/-- mergeIncoming: computes the next full accumulated text from the current
state and an incoming fragment.  Only the blockOffset field is mutated (in
the cumulative new-block branch); the mutated state is returned alongside
the next text. -/
def mergeIncoming (ss : SessionStreamState) (incoming : Str) (modeHint : StreamMode) :
    SessionStreamState × Str :=
  let previous := ss.text
  match modeHint with
  | .cumulative =>
    if previous = [] then (ss, incoming)
    else if incoming = previous then (ss, previous)
    else if previous <+: incoming then (ss, incoming)
    else
      let currentBlock := previous.drop ss.blockOffset
      if currentBlock ≠ [] ∧ currentBlock <+: incoming then
        (ss, previous.take ss.blockOffset ++ incoming)
      else
        ({ ss with blockOffset := previous.length + blockSeparator.length },
          previous ++ blockSeparator ++ incoming)
  | .delta =>
    if previous ≠ [] ∧ previous <+: incoming then (ss, incoming)
    else if previous ≠ [] ∧ incoming <:+ previous then (ss, previous)
    else if previous ≠ [] then
      (ss, overlapScan previous incoming (min previous.length incoming.length))
    else (ss, previous ++ incoming)

/-- applyStreamText: adopts the next text into the state and emits the
appended chunk (or a block-separated chunk when the next text does not
extend the previous one). -/
def applyStreamText (ss : SessionStreamState) (nextText : Str) (sessionKey : Str) :
    SessionStreamState × List OutEvent :=
  if nextText = [] then (ss, [])
  else
    let previous := ss.text
    if nextText = previous then (ss, [])
    else if previous = [] then
      ({ ss with text := nextText }, [.streamChunk nextText sessionKey])
    else if previous <+: nextText then
      let append := nextText.drop previous.length
      ({ ss with text := nextText },
        if append = [] then [] else [.streamChunk append sessionKey])
    else
      ({ ss with text := previous ++ blockSeparator ++ nextText },
        [.streamChunk (blockSeparator ++ nextText) sessionKey])

/-- One fragment through the merge pipeline, exactly as every handler call
site does it: nextText := mergeIncoming(ss, fragment, hint);
applyStreamText(ss, nextText, sessionKey). -/
def processFragment (ss : SessionStreamState) (fragment : Str) (modeHint : StreamMode)
    (sessionKey : Str) : SessionStreamState × List OutEvent :=
  let merged := mergeIncoming ss fragment modeHint
  applyStreamText merged.1 merged.2 sessionKey

/-- A whole sequence of fragments fed to one SessionStreamState, each with
the mode hint its handler call site passes. -/
def processFragments (ss : SessionStreamState) (sessionKey : Str) :
    List (Str × StreamMode) → SessionStreamState × List OutEvent
  | [] => (ss, [])
  | (fragment, hint) :: rest =>
    let step := processFragment ss fragment hint sessionKey
    let tail := processFragments step.1 sessionKey rest
    (tail.1, step.2 ++ tail.2)

/-- The texts of the streamChunk events among a list of emitted events. -/
def chunkTexts (evs : List OutEvent) : List Str :=
  evs.filterMap fun ev =>
    match ev with
    | .streamChunk t _ => some t
    | _ => none

/-! ### Client-level stream tracking and notification handling -/

/-- The stream-tracking fields of the client: the per-session stream map,
the parent-session key set, the default key and the resolved flag. -/
structure StreamClient where
  sessionStreams : List (Str × SessionStreamState)
  parentSessionKeys : List Str
  defaultSessionKey : Option Str
  sessionKeyResolved : Bool
deriving DecidableEq, Repr

def emptyStreamClient : StreamClient :=
  { sessionStreams := [], parentSessionKeys := [], defaultSessionKey := none,
    sessionKeyResolved := false }

/-- Map.get on the session-stream map. -/
def lookupStream : List (Str × SessionStreamState) → Str → Option SessionStreamState
  | [], _ => none
  | (k1, v1) :: rest, k => if k1 = k then some v1 else lookupStream rest k

/-- Map.set on the session-stream map. -/
def setStream : List (Str × SessionStreamState) → Str → SessionStreamState →
    List (Str × SessionStreamState)
  | [], k, v => [(k, v)]
  | (k1, v1) :: rest, k, v =>
    if k1 = k then (k, v) :: rest else (k1, v1) :: setStream rest k v

/-- Map.delete on the session-stream map (resetSessionStream). -/
def delStream (m : List (Str × SessionStreamState)) (k : Str) :
    List (Str × SessionStreamState) :=
  m.filter fun kv => kv.1 ≠ k

/-- Set.add on the parent-session key set. -/
def addParentKey (ks : List Str) (k : Str) : List Str :=
  if k ∈ ks then ks else ks ++ [k]

/-- getStream: returns the existing state for the key, inserting (and
returning) a fresh one when the key is absent. -/
def getStream (m : List (Str × SessionStreamState)) (k : Str) :
    SessionStreamState × List (Str × SessionStreamState) :=
  match lookupStream m k with
  | some ss => (ss, m)
  | none => (createSessionStream, setStream m k createSessionStream)

/-- resolveEventSessionKey: a nonempty string event key, else the default
key, else the literal default placeholder. -/
def resolveEventSessionKey (c : StreamClient) (eventSessionKey : Option Str) : Str :=
  match eventSessionKey with
  | some k => if k ≠ [] then k else defaultFallbackKey c
  | none => defaultFallbackKey c
where
  defaultFallbackKey (c : StreamClient) : Str :=
    match c.defaultSessionKey with
    | some d => if d ≠ [] then d else "__default__".data
    | none => "__default__".data

/-- resetStreamState (run on socket close and on disconnect()). -/
def resetStreamState (_c : StreamClient) : StreamClient := emptyStreamClient

/-- setPrimarySessionKey. -/
def setPrimarySessionKey (c : StreamClient) (key : Option Str) : StreamClient :=
  match key with
  | some k =>
    if k ≠ [] then
      { c with parentSessionKeys := addParentKey c.parentSessionKeys k,
               defaultSessionKey := some k, sessionKeyResolved := false }
    else { c with defaultSessionKey := none }
  | none => { c with defaultSessionKey := none }

/-- maybeEmitSessionKey: emit streamSessionKey for the first event of a new
send cycle when the key differs from the default. -/
def maybeEmitSessionKey (c : StreamClient) (runId : Option Str) (sessionKey : Str) :
    StreamClient × List OutEvent :=
  if c.sessionKeyResolved then (c, [])
  else
    match c.defaultSessionKey with
    | none => (c, [])
    | some dk =>
      if sessionKey ∈ c.parentSessionKeys ∧ sessionKey ≠ dk then (c, [])
      else
        let c1 := { c with sessionKeyResolved := true }
        if sessionKey = dk then (c1, [])
        else
          ({ c1 with parentSessionKeys := addParentKey c1.parentSessionKeys sessionKey },
            [.streamSessionKey runId sessionKey])

/-- ensureStream: records the runId when absent, runs maybeEmitSessionKey,
claims the source if unclaimed, and (only when this fragment's channel owns
the stream) detects the mode once and emits streamStart once. -/
def ensureStream (c : StreamClient) (ss : SessionStreamState) (source : StreamSource)
    (modeHint : StreamMode) (runId : Option Str) (sessionKey : Str) :
    StreamClient × SessionStreamState × List OutEvent :=
  let ss1 := if runId.isSome ∧ ss.runId = none then { ss with runId := runId } else ss
  let emitted := maybeEmitSessionKey c runId sessionKey
  let c1 := emitted.1
  let ss2 := if ss1.source = none then { ss1 with source := some source } else ss1
  if ss2.source ≠ some source then (c1, ss2, emitted.2)
  else
    let ss3 := if ss2.mode = none then { ss2 with mode := some modeHint } else ss2
    if ss3.started then (c1, ss3, emitted.2)
    else (c1, { ss3 with started := true }, emitted.2 ++ [.streamStart sessionKey])

/-! ### Notification payloads -/

/-- A content block of a structured message (array element).  A thinking
block carries its thinking field when that field is a string; blocks of any
other type are collapsed into otherBlock. -/
inductive ContentBlock
  | textBlock (s : Str)
  | thinkingBlock (s : Str)
  | otherBlock
deriving DecidableEq, Repr

/-- The content value of a message: a flat string, a block array, an object
with a text field (stringified), or anything else. -/
inductive ContentVal
  | str (s : Str)
  | blocks (bs : List ContentBlock)
  | objWithText (s : Str)
  | otherVal
deriving DecidableEq, Repr

/-- extractTextFromContent. -/
def extractTextFromContent : ContentVal → Str
  | .str s => stripAnsi s
  | .blocks bs =>
    stripAnsi
      ((bs.filterMap fun b =>
        match b with
        | .textBlock s => some s
        | _ => none).flatten)
  | .objWithText s => stripAnsi s
  | .otherVal => stripAnsi []

/-- The first thinking block of a block array, when one exists. -/
def firstThinking (bs : List ContentBlock) : Option Str :=
  bs.findSome? fun b =>
    match b with
    | .thinkingBlock s => some s
    | _ => none

/-- A tool result value: a string, a non-object primitive, or an object
with an optional content array (entries carry their text field when it is a
string), an optional text field and an optional output field. -/
inductive ToolResultVal
  | str (s : Str)
  | otherPrim
  | obj (content : Option (List (Option Str))) (text : Option Str) (output : Option Str)
deriving DecidableEq, Repr

/-- extractToolResultText. -/
def extractToolResultText : ToolResultVal → Option Str
  | .str s => some s
  | .otherPrim => none
  | .obj content text output =>
    match content with
    | some items =>
      let texts := items.filterMap id
      if texts.length > 0 then some (List.intercalate ['\n'] texts) else none
    | none =>
      match text with
      | some t => some t
      | none => output

/-- JS truthiness coalescing on an optional string (the empty string is
falsy): some nonempty value passes, anything else falls through. -/
def jsStrOr (a : Option Str) (fallback : Str) : Str :=
  match a with
  | some s => if s ≠ [] then s else fallback
  | none => fallback

/-- Decimal rendering of a Nat (for the Date.now() based fallback ids). -/
def natToStr (n : Nat) : Str := (Nat.repr n).data

/-- The final-message payload of a chat final event. -/
structure ChatFinalMessage where
  msgId : Option Str
  role : Str
  content : ContentVal
  timestamp : Option Nat
deriving DecidableEq, Repr

/-- payload.data of an agent assistant event: the canonical text field when
it is a string, and the delta field when it is a string. -/
structure AgentAssistantData where
  text : Option Str
  delta : Option Str
deriving DecidableEq, Repr

/-- payload.data of an agent tool event. -/
structure AgentToolData where
  toolCallId : Option Str
  dataId : Option Str
  name : Option Str
  toolName : Option Str
  phase : Option Str
  result : Option ToolResultVal
deriving DecidableEq, Repr

/-- payload.data of an agent lifecycle event. -/
structure AgentLifecycleData where
  phase : Option Str
  state : Option Str
deriving DecidableEq, Repr

/-- The notifications dispatched by handleNotification: chat events by
their state field, agent events by their stream field, presence, and the
generic pass-through of any other event name.  Each carries the optional
sessionKey and runId of its payload. -/
inductive Notification
  | chatDelta (sessionKey runId : Option Str) (messageContent : Option ContentVal)
      (delta : Option Str)
  | chatFinal (sessionKey runId : Option Str) (message : Option ChatFinalMessage)
  | chatOther (sessionKey : Option Str)
  | presence (sessionKey : Option Str)
  | agentAssistant (sessionKey runId : Option Str) (data : AgentAssistantData)
  | agentTool (sessionKey runId : Option Str) (data : Option AgentToolData)
  | agentLifecycle (sessionKey runId : Option Str) (data : Option AgentLifecycleData)
  | agentOther (sessionKey : Option Str)
  | otherEvent (name : Str) (sessionKey : Option Str)
deriving DecidableEq, Repr

/-- payload?.sessionKey of a notification. -/
def notifSessionKey : Notification → Option Str
  | .chatDelta k _ _ _ => k
  | .chatFinal k _ _ => k
  | .chatOther k => k
  | .presence k => k
  | .agentAssistant k _ _ => k
  | .agentTool k _ _ => k
  | .agentLifecycle k _ _ => k
  | .agentOther k => k
  | .otherEvent _ k => k

/-! ### The notification handler -/

/-- The subagent-detection check performed at the top of handleNotification:
parent set nonempty, a truthy event key, key not in the parent set. -/
def subagentCheck (c : StreamClient) (eventSessionKey : Option Str) : List OutEvent :=
  match eventSessionKey with
  | some k =>
    if c.parentSessionKeys ≠ [] ∧ k ≠ [] ∧ k ∉ c.parentSessionKeys then
      [.subagentDetected k]
    else []
  | none => []

/-- The chat state=delta branch. -/
def handleChatDelta (c : StreamClient) (sk : Str) (runId : Option Str)
    (messageContent : Option ContentVal) (delta : Option Str) :
    StreamClient × List OutEvent :=
  let got := getStream c.sessionStreams sk
  let c0 := { c with sessionStreams := got.2 }
  let ensured := ensureStream c0 got.1 .chat .cumulative runId sk
  let c1 := ensured.1
  let ss1 := ensured.2.1
  let evs1 := ensured.2.2
  if ss1.source ≠ some .chat then
    ({ c1 with sessionStreams := setStream c1.sessionStreams sk ss1 }, evs1)
  else
    let rawText :=
      match messageContent with
      | some cv => extractTextFromContent cv
      | none =>
        match delta with
        | some d => stripAnsi d
        | none => []
    if rawText = [] then
      ({ c1 with sessionStreams := setStream c1.sessionStreams sk ss1 }, evs1)
    else
      let merged := mergeIncoming ss1 (heartbeatSubst rawText) .cumulative
      let applied := applyStreamText merged.1 merged.2 sk
      ({ c1 with sessionStreams := setStream c1.sessionStreams sk applied.1 },
        evs1 ++ applied.2)

/-- The chat state=final branch: construct and emit the Message, emit
streamEnd when a stream was started, then delete the session stream. -/
def handleChatFinal (c : StreamClient) (now : Nat) (sk : Str) (eventSessionKey : Option Str)
    (runId : Option Str) (message : Option ChatFinalMessage) :
    StreamClient × List OutEvent :=
  let got := getStream c.sessionStreams sk
  let c0 := { c with sessionStreams := got.2 }
  let emitted := maybeEmitSessionKey c0 runId sk
  let c1 := emitted.1
  let msgEvs :=
    match message with
    | none => []
    | some pm =>
      let text := extractTextFromContent pm.content
      if text = [] then []
      else
        let mid := jsStrOr pm.msgId (jsStrOr runId ("msg-".data ++ natToStr now))
        let tsMs :=
          match pm.timestamp with
          | some t => if t > 1000000000000 then t else t * 1000
          | none => now
        let thinking :=
          match pm.content with
          | .blocks bs => firstThinking bs
          | _ => none
        [OutEvent.messageEvt
          { msgId := mid, role := pm.role, content := heartbeatSubst text,
            thinking := thinking, timestampMs := tsMs, sessionKey := eventSessionKey }]
  let endEvs := if got.1.started then [OutEvent.streamEnd eventSessionKey] else []
  ({ c1 with sessionStreams := delStream c1.sessionStreams sk }, emitted.2 ++ msgEvs ++ endEvs)

/-- The agent stream=assistant branch: canonical text merges cumulatively,
a delta merges in delta mode; both go through heartbeat substitution. -/
def handleAgentAssistant (c : StreamClient) (sk : Str) (runId : Option Str)
    (data : AgentAssistantData) : StreamClient × List OutEvent :=
  let got := getStream c.sessionStreams sk
  let c0 := { c with sessionStreams := got.2 }
  let hasCanonicalText := data.text.isSome
  let ensured :=
    ensureStream c0 got.1 .agent (if hasCanonicalText then .cumulative else .delta) runId sk
  let c1 := ensured.1
  let ss1 := ensured.2.1
  let evs1 := ensured.2.2
  if ss1.source ≠ some .agent then
    ({ c1 with sessionStreams := setStream c1.sessionStreams sk ss1 }, evs1)
  else
    let canonicalText :=
      match data.text with
      | some t => stripAnsi t
      | none => []
    if canonicalText ≠ [] then
      let merged := mergeIncoming ss1 (heartbeatSubst canonicalText) .cumulative
      let applied := applyStreamText merged.1 merged.2 sk
      ({ c1 with sessionStreams := setStream c1.sessionStreams sk applied.1 },
        evs1 ++ applied.2)
    else
      let deltaText :=
        match data.delta with
        | some t => stripAnsi t
        | none => []
      if deltaText ≠ [] then
        let merged := mergeIncoming ss1 (heartbeatSubst deltaText) .delta
        let applied := applyStreamText merged.1 merged.2 sk
        ({ c1 with sessionStreams := setStream c1.sessionStreams sk applied.1 },
          evs1 ++ applied.2)
      else ({ c1 with sessionStreams := setStream c1.sessionStreams sk ss1 }, evs1)

/-- The agent stream=tool branch. -/
def handleAgentTool (c : StreamClient) (now : Nat) (sk : Str) (eventSessionKey : Option Str)
    (runId : Option Str) (data : Option AgentToolData) : StreamClient × List OutEvent :=
  let got := getStream c.sessionStreams sk
  let c0 := { c with sessionStreams := got.2 }
  let emitted := maybeEmitSessionKey c0 runId sk
  let c1 := emitted.1
  let startPair :=
    if got.1.started then (got.1, ([] : List OutEvent))
    else ({ got.1 with started := true }, [OutEvent.streamStart sk])
  let d := data.getD { toolCallId := none, dataId := none, name := none, toolName := none,
                       phase := none, result := none }
  let rawResult := d.result.bind extractToolResultText
  let tc : ToolCallOut :=
    { toolCallId := jsStrOr d.toolCallId (jsStrOr d.dataId ("tool-".data ++ natToStr now)),
      name := jsStrOr d.name (jsStrOr d.toolName "unknown".data),
      phase := jsStrOr d.phase (if d.result.isSome then "result".data else "start".data),
      result :=
        match rawResult with
        | some r => if r ≠ [] then some (stripAnsi r) else none
        | none => none,
      sessionKey := eventSessionKey }
  ({ c1 with sessionStreams := setStream c1.sessionStreams sk startPair.1 },
    emitted.2 ++ startPair.2 ++ [OutEvent.toolCallEvt tc])

/-- The agent stream=lifecycle branch: on a terminal phase/state, an
agent-owned started stream emits streamEnd and only the started flag is
cleared (partial reset; chat final deletes the state). -/
def handleAgentLifecycle (c : StreamClient) (sk : Str) (eventSessionKey : Option Str)
    (runId : Option Str) (data : Option AgentLifecycleData) : StreamClient × List OutEvent :=
  let got := getStream c.sessionStreams sk
  let c0 := { c with sessionStreams := got.2 }
  let emitted := maybeEmitSessionKey c0 runId sk
  let c1 := emitted.1
  let phase := data.bind (·.phase)
  let lifState := data.bind (·.state)
  if phase = some "end".data ∨ phase = some "error".data ∨
      lifState = some "complete".data ∨ lifState = some "error".data then
    if got.1.source = some .agent ∧ got.1.started then
      ({ c1 with sessionStreams := setStream c1.sessionStreams sk { got.1 with started := false } },
        emitted.2 ++ [OutEvent.streamEnd eventSessionKey])
    else ({ c1 with sessionStreams := setStream c1.sessionStreams sk got.1 }, emitted.2)
  else ({ c1 with sessionStreams := setStream c1.sessionStreams sk got.1 }, emitted.2)

/-- The dispatch body of handleNotification (everything after the subagent
check).  now stands for Date.now() at handling time. -/
def handleNotificationBody (c : StreamClient) (now : Nat) (n : Notification) (sk : Str) :
    StreamClient × List OutEvent :=
  match n with
  | .chatDelta _ runId mc delta => handleChatDelta c sk runId mc delta
  | .chatFinal esk runId message => handleChatFinal c now sk esk runId message
  | .chatOther _ => ({ c with sessionStreams := (getStream c.sessionStreams sk).2 }, [])
  | .presence _ => (c, [OutEvent.agentStatusEvt])
  | .agentAssistant _ runId data => handleAgentAssistant c sk runId data
  | .agentTool esk runId data => handleAgentTool c now sk esk runId data
  | .agentLifecycle esk runId data => handleAgentLifecycle c sk esk runId data
  | .agentOther _ => ({ c with sessionStreams := (getStream c.sessionStreams sk).2 }, [])
  | .otherEvent name _ => (c, [OutEvent.passthroughEvt name])

/-- handleNotification: resolve the session key, run the subagent check,
then dispatch on the event. -/
def handleNotification (c : StreamClient) (now : Nat) (n : Notification) :
    StreamClient × List OutEvent :=
  let eventSessionKey := notifSessionKey n
  let sk := resolveEventSessionKey c eventSessionKey
  let body := handleNotificationBody c now n sk
  (body.1, subagentCheck c eventSessionKey ++ body.2)

/-- A sequence of notifications through one client. -/
def runNotifications (c : StreamClient) (now : Nat) :
    List Notification → StreamClient × List OutEvent
  | [] => (c, [])
  | n :: rest =>
    let step := handleNotification c now n
    let tail := runNotifications step.1 now rest
    (tail.1, step.2 ++ tail.2)

/-! ### Connection, request correlation and reconnection

The wire-level client state: the monotonic request-id counter, the pending
request table (ids of stored entries; the request frame carries the decimal
rendering of the id), the authenticated flag, whether the socket is open,
and the reconnection counters.  Asynchronous occurrences — an incoming
response frame, a call timeout timer firing (armed for 30 000 ms at call
time), the socket opening or closing — are explicit operations on this
state. -/

/-- The fixed per-call timeout of the request correlator, in ms. -/
def requestTimeoutMs : Nat := 30000

structure RpcClient where
  requestId : Nat
  pending : List Nat
  authenticated : Bool
  wsOpen : Bool
  reconnectAttempts : Nat
  maxReconnectAttempts : Nat
  reconnectDelay : Nat
  streams : StreamClient
deriving DecidableEq, Repr

/-- A fresh client instance. -/
def initRpcClient : RpcClient :=
  { requestId := 0, pending := [], authenticated := false, wsOpen := false,
    reconnectAttempts := 0, maxReconnectAttempts := 5, reconnectDelay := 1000,
    streams := emptyStreamClient }

/-- attemptReconnect: below the attempt cap, bump the counter and schedule
a retry after reconnectDelay * 2 ^ (attempts - 1) ms; at or above the cap,
do nothing. -/
def attemptReconnect (s : RpcClient) : RpcClient × Option Nat :=
  if s.reconnectAttempts ≥ s.maxReconnectAttempts then (s, none)
  else
    let a := s.reconnectAttempts + 1
    ({ s with reconnectAttempts := a }, some (s.reconnectDelay * 2 ^ (a - 1)))

/-- The operations that drive the wire-level state. -/
inductive WireOp
  | callOp (method : Str)
  | handshakeOp
  | respOp (rid : Nat) (ok : Bool) (helloOk : Bool)
  | timeoutFire (rid : Nat)
  | socketOpen
  | socketClosed
  | disconnectCall
deriving DecidableEq, Repr

/-- Observable wire-level outcomes. -/
inductive WireOut
  | frameSent (id : Nat) (method : Str)
  | settledOk (id : Nat)
  | settledErr (id : Nat)
  | callRejectedClosed
  | disconnectedEvt
  | reconnectScheduled (delayMs : Nat)
  | connectedEvt
deriving DecidableEq, Repr

/-- One wire-level step.
callOp: call() throws before sending or storing anything when the socket is
not open; otherwise it allocates ++requestId, stores a pending entry, and
sends the frame (arming the 30 s timeout).
handshakeOp: performHandshake allocates ++requestId and sends the connect
frame without storing a pending entry.
respOp: handleMessage on a response frame — the hello-ok path flips
authenticated without touching the table; a matched id settles and removes
its entry; an unmatched id is dropped.
timeoutFire: the timer of a call — if the entry is still pending, remove it
and reject; otherwise nothing.
socketClosed: the onclose handler — clears authenticated and the stream
state, emits disconnected and runs attemptReconnect; the pending table is
not touched.
disconnectCall: disconnect() — zeroes the attempt cap, closes the socket
and clears the stream state. -/
def wireStep (s : RpcClient) : WireOp → RpcClient × List WireOut
  | .callOp method =>
    if s.wsOpen then
      let id := s.requestId + 1
      ({ s with requestId := id, pending := s.pending ++ [id] }, [.frameSent id method])
    else (s, [.callRejectedClosed])
  | .handshakeOp =>
    let id := s.requestId + 1
    ({ s with requestId := id }, [.frameSent id "connect".data])
  | .respOp rid ok helloOk =>
    if ¬ s.authenticated ∧ ok ∧ helloOk then ({ s with authenticated := true }, [.connectedEvt])
    else if rid ∈ s.pending then
      ({ s with pending := s.pending.filter (· ≠ rid) },
        [if ok then .settledOk rid else .settledErr rid])
    else (s, [])
  | .timeoutFire rid =>
    if rid ∈ s.pending then
      ({ s with pending := s.pending.filter (· ≠ rid) }, [.settledErr rid])
    else (s, [])
  | .socketOpen => ({ s with wsOpen := true, reconnectAttempts := 0 }, [])
  | .socketClosed =>
    let s1 := { s with wsOpen := false, authenticated := false,
                       streams := resetStreamState s.streams }
    let retried := attemptReconnect s1
    (retried.1,
      [.disconnectedEvt] ++
        (match retried.2 with
         | some ms => [.reconnectScheduled ms]
         | none => []))
  | .disconnectCall =>
    ({ s with maxReconnectAttempts := 0, wsOpen := false, authenticated := false,
              streams := resetStreamState s.streams }, [])

/-- A sequence of wire-level operations. -/
def runWire (s : RpcClient) : List WireOp → RpcClient × List WireOut
  | [] => (s, [])
  | op :: rest =>
    let step := wireStep s op
    let tail := runWire step.1 rest
    (tail.1, step.2 ++ tail.2)

/-- The settlements for a given request id among wire outcomes. -/
def settleCount (outs : List WireOut) (rid : Nat) : Nat :=
  outs.count (.settledOk rid) + outs.count (.settledErr rid)

/-- The ids of the request frames among wire outcomes. -/
def frameIds (outs : List WireOut) : List Nat :=
  outs.filterMap fun o =>
    match o with
    | .frameSent id _ => some id
    | _ => none

/-- The reconnection delays scheduled among wire outcomes. -/
def scheduledDelays (outs : List WireOut) : List Nat :=
  outs.filterMap fun o =>
    match o with
    | .reconnectScheduled d => some d
    | _ => none

/-- The well-formedness invariant of the correlator state: pending ids are
distinct and never exceed the allocation counter. -/
def RpcInv (s : RpcClient) : Prop :=
  s.pending.Nodup ∧ ∀ j ∈ s.pending, j ≤ s.requestId

/-! ### Theorems -/

theorem prefix_append_drop {l t : Str} (h : l <+: t) : l ++ t.drop l.length = t := by
  obtain ⟨u, rfl⟩ := h
  simp

theorem prefix_suffix_eq {a b : Str} (h1 : a <+: b) (h2 : b <:+ a) : a = b :=
  h1.eq_of_length (Nat.le_antisymm h1.length_le h2.length_le)

theorem mergeIncoming_text (ss : SessionStreamState) (inc : Str) (m : StreamMode) :
    (mergeIncoming ss inc m).1.text = ss.text := by
  unfold mergeIncoming
  cases m <;> dsimp only <;> split_ifs <;> rfl

theorem applyStreamText_text_eq (ss : SessionStreamState) (t sk : Str) :
    (applyStreamText ss t sk).1.text =
      ss.text ++ (chunkTexts (applyStreamText ss t sk).2).flatten := by
  unfold applyStreamText
  dsimp only
  split_ifs with h1 h2 h3 h4 h5
  · simp [chunkTexts]
  · simp [chunkTexts, h2]
  · simp [chunkTexts, h3]
  · have := prefix_append_drop h4
    simp only [chunkTexts, List.filterMap_nil, List.flatten_nil, List.append_nil]
    rw [h5] at this
    simpa using this.symm
  · simpa [chunkTexts] using (prefix_append_drop h4).symm
  · simp [chunkTexts]

theorem chunkTexts_append (a b : List OutEvent) :
    chunkTexts (a ++ b) = chunkTexts a ++ chunkTexts b := by
  simp [chunkTexts]

theorem processFragment_text_eq (ss : SessionStreamState) (frag : Str) (hint : StreamMode)
    (sk : Str) :
    (processFragment ss frag hint sk).1.text =
      ss.text ++ (chunkTexts (processFragment ss frag hint sk).2).flatten := by
  unfold processFragment
  rw [applyStreamText_text_eq, mergeIncoming_text]

/-- C1: for every sequence of fragments fed to one SessionStreamState, the
accumulated text never shrinks — the text before the run is a prefix of the
text after it (so in particular each single update preserves the previous
text as a prefix) — and the in-order concatenation of all emitted
streamChunk texts equals the growth of the accumulated text; starting from
a fresh state (empty text) the concatenation equals the final accumulated
text exactly, the synthetic two-newline block separators being part of the
emitted chunks. -/
theorem claim_stream_append_only_chunk_law (ss : SessionStreamState) (sk : Str)
    (frags : List (Str × StreamMode)) :
    (processFragments ss sk frags).1.text =
        ss.text ++ (chunkTexts (processFragments ss sk frags).2).flatten ∧
      ss.text <+: (processFragments ss sk frags).1.text ∧
      (processFragments createSessionStream sk frags).1.text =
        (chunkTexts (processFragments createSessionStream sk frags).2).flatten := by
  have main : ∀ (frags : List (Str × StreamMode)) (ss : SessionStreamState),
      (processFragments ss sk frags).1.text =
        ss.text ++ (chunkTexts (processFragments ss sk frags).2).flatten := by
    intro frags
    induction frags with
    | nil => intro ss; simp [processFragments, chunkTexts]
    | cons f rest ih =>
      intro ss
      obtain ⟨frag, hint⟩ := f
      show (processFragments (processFragment ss frag hint sk).1 sk rest).1.text =
        ss.text ++ (chunkTexts ((processFragment ss frag hint sk).2 ++
          (processFragments (processFragment ss frag hint sk).1 sk rest).2)).flatten
      rw [ih, processFragment_text_eq, chunkTexts_append, List.flatten_append,
        List.append_assoc]
  refine ⟨main frags ss, ?_, ?_⟩
  · rw [main frags ss]; exact ⟨_, rfl⟩
  · have := main frags createSessionStream
    simpa [createSessionStream] using this

theorem overlapScan_no_overlap (previous incoming : Str) (n : Nat)
    (h : ∀ i, 0 < i → i ≤ n → ¬ incoming.take i <:+ previous) :
    overlapScan previous incoming n = previous ++ incoming := by
  induction n with
  | zero => rfl
  | succ m ih =>
    unfold overlapScan
    rw [if_neg (h (m + 1) (by omega) (by omega))]
    exact ih fun i hi him => h i hi (by omega)

theorem overlapScan_longest (previous incoming : Str) (n k : Nat)
    (hk : 0 < k) (hkn : k ≤ n) (hmatch : incoming.take k <:+ previous)
    (hmax : ∀ j, k < j → j ≤ n → ¬ incoming.take j <:+ previous) :
    overlapScan previous incoming n = previous ++ incoming.drop k := by
  induction n with
  | zero => omega
  | succ m ih =>
    unfold overlapScan
    by_cases he : k = m + 1
    · subst he
      rw [if_pos hmatch]
    · have hkm : k ≤ m := by omega
      rw [if_neg (hmax (m + 1) (by omega) (by omega))]
      exact ih hkm fun j hj hjm => hmax j hj (by omega)

theorem mergeIncoming_delta_suffix (ss : SessionStreamState) (inc : Str)
    (hne : ss.text ≠ []) (hsuf : inc <:+ ss.text) :
    mergeIncoming ss inc .delta = (ss, ss.text) := by
  unfold mergeIncoming
  dsimp only
  by_cases hp : ss.text <+: inc
  · rw [if_pos ⟨hne, hp⟩, prefix_suffix_eq hp hsuf]
  · rw [if_neg (by tauto), if_pos ⟨hne, hsuf⟩]

theorem applyStreamText_same (ss : SessionStreamState) (sk : Str) (hne : ss.text ≠ []) :
    applyStreamText ss ss.text sk = (ss, []) := by
  unfold applyStreamText
  dsimp only
  rw [if_neg hne, if_pos rfl]

theorem mergeIncoming_delta_extends (ss : SessionStreamState) (inc : Str)
    (hne : ss.text ≠ []) (hp : ss.text <+: inc) :
    mergeIncoming ss inc .delta = (ss, inc) := by
  unfold mergeIncoming
  dsimp only
  rw [if_pos ⟨hne, hp⟩]

theorem mergeIncoming_delta_overlap (ss : SessionStreamState) (inc : Str)
    (hne : ss.text ≠ []) (hp : ¬ ss.text <+: inc) (hs : ¬ inc <:+ ss.text) :
    mergeIncoming ss inc .delta =
      (ss, overlapScan ss.text inc (min ss.text.length inc.length)) := by
  unfold mergeIncoming
  dsimp only
  rw [if_neg (by tauto), if_neg (by tauto), if_pos hne]

theorem applyStreamText_prefix_extend (ss : SessionStreamState) (inc sk : Str)
    (hne : ss.text ≠ []) (hp : ss.text <+: inc) (hneq : inc ≠ ss.text) :
    applyStreamText ss inc sk =
      ({ ss with text := inc }, [.streamChunk (inc.drop ss.text.length) sk]) := by
  have hinc : inc ≠ [] := by
    intro h
    subst h
    exact hne (List.prefix_nil.mp hp)
  have happ : inc.drop ss.text.length ≠ [] := by
    intro h
    apply hneq
    have hx := prefix_append_drop hp
    rw [h] at hx
    simpa using hx.symm
  unfold applyStreamText
  dsimp only
  rw [if_neg hinc, if_neg hneq, if_neg hne, if_pos hp, if_neg happ]

/-- C2: in delta mode with nonempty accumulated text — (i) a fragment that
equals the accumulated text or is a suffix of it produces no emission and
no state change; (ii) a fragment that strictly extends it as a prefix
replaces the full text, emitting only the appended remainder; (iii) when k
is the longest overlap length (scanning from the length cap down) such that
the first k characters of the fragment are a suffix of the accumulated
text, only the non-overlapping remainder is appended and emitted; (iv) with
no overlap at all the whole fragment is appended; and (v) concretely,
accumulated "The cat sat" plus delta "cat sat on the mat" emits exactly
" on the mat" and yields "The cat sat on the mat". -/
theorem claim_delta_overlap_merge :
    (∀ (ss : SessionStreamState) (inc sk : Str), ss.text ≠ [] → inc <:+ ss.text →
      processFragment ss inc .delta sk = (ss, [])) ∧
    (∀ (ss : SessionStreamState) (inc sk : Str), ss.text ≠ [] → ss.text <+: inc →
      inc ≠ ss.text →
      processFragment ss inc .delta sk =
        ({ ss with text := inc }, [.streamChunk (inc.drop ss.text.length) sk])) ∧
    (∀ (ss : SessionStreamState) (inc sk : Str) (k : Nat), ss.text ≠ [] →
      ¬ ss.text <+: inc → ¬ inc <:+ ss.text → 0 < k →
      k ≤ min ss.text.length inc.length → inc.take k <:+ ss.text →
      (∀ j, k < j → j ≤ min ss.text.length inc.length → ¬ inc.take j <:+ ss.text) →
      processFragment ss inc .delta sk =
        ({ ss with text := ss.text ++ inc.drop k }, [.streamChunk (inc.drop k) sk])) ∧
    (∀ (ss : SessionStreamState) (inc sk : Str), ss.text ≠ [] →
      ¬ ss.text <+: inc → ¬ inc <:+ ss.text →
      (∀ j, 0 < j → j ≤ min ss.text.length inc.length → ¬ inc.take j <:+ ss.text) →
      processFragment ss inc .delta sk =
        ({ ss with text := ss.text ++ inc }, [.streamChunk inc sk])) ∧
    processFragment { createSessionStream with text := "The cat sat".data }
        "cat sat on the mat".data .delta [] =
      ({ createSessionStream with text := "The cat sat on the mat".data },
        [.streamChunk " on the mat".data []]) := by
  refine ⟨?_, ?_, ?_, ?_, ?_⟩
  · intro ss inc sk h1 h2
    unfold processFragment
    rw [mergeIncoming_delta_suffix ss inc h1 h2]
    exact applyStreamText_same ss sk h1
  · intro ss inc sk h1 h2 h3
    unfold processFragment
    rw [mergeIncoming_delta_extends ss inc h1 h2]
    exact applyStreamText_prefix_extend ss inc sk h1 h2 h3
  · intro ss inc sk k h1 h2 h3 hk hkmin hmatch hmax
    unfold processFragment
    rw [mergeIncoming_delta_overlap ss inc h1 h2 h3,
      overlapScan_longest ss.text inc _ k hk hkmin hmatch hmax]
    have hdrop : inc.drop k ≠ [] := by
      intro h
      have hlen : inc.length - k = 0 := by
        have hx := congrArg List.length h
        simpa using hx
      have hkeq : k = inc.length :=
        Nat.le_antisymm (le_trans hkmin (min_le_right _ _)) (by omega)
      apply h3
      have hx : inc.take k = inc := by
        rw [hkeq]
        exact List.take_length inc
      rwa [hx] at hmatch
    have hp : ss.text <+: ss.text ++ inc.drop k := ⟨_, rfl⟩
    have hneq : ss.text ++ inc.drop k ≠ ss.text := by
      intro h
      apply hdrop
      have hx := congrArg List.length h
      simp only [List.length_append] at hx
      exact List.eq_nil_of_length_eq_zero (by omega)
    rw [applyStreamText_prefix_extend _ _ _ h1 hp hneq]
    rw [List.drop_left]
  · intro ss inc sk h1 h2 h3 hnone
    unfold processFragment
    rw [mergeIncoming_delta_overlap ss inc h1 h2 h3,
      overlapScan_no_overlap ss.text inc _ hnone]
    have hinc : inc ≠ [] := by
      intro h
      subst h
      exact h3 List.nil_suffix
    have hp : ss.text <+: ss.text ++ inc := ⟨_, rfl⟩
    have hneq : ss.text ++ inc ≠ ss.text := by
      intro h
      apply hinc
      have hx := congrArg List.length h
      simp only [List.length_append] at hx
      exact List.eq_nil_of_length_eq_zero (by omega)
    rw [applyStreamText_prefix_extend _ _ _ h1 hp hneq]
    rw [List.drop_left]
  · decide

/-- Witness for C2: the overlap-merge case applied at the concrete example
(accumulated "The cat sat", incoming "cat sat on the mat", best overlap
k = 7). -/
theorem claim_delta_overlap_merge_witness :
    processFragment { createSessionStream with text := "The cat sat".data }
        "cat sat on the mat".data .delta [] =
      ({ createSessionStream with
          text := "The cat sat".data ++ "cat sat on the mat".data.drop 7 },
        [.streamChunk ("cat sat on the mat".data.drop 7) []]) :=
  claim_delta_overlap_merge.2.2.1
    { createSessionStream with text := "The cat sat".data }
    "cat sat on the mat".data [] 7 (by decide) (by decide) (by decide) (by decide)
    (by decide) (by decide)
    (by
      intro j hj hjle
      have hj11 : j ≤ 11 := by simpa using hjle
      interval_cases j <;> decide)

theorem attemptReconnect_capped {s : RpcClient}
    (h : s.maxReconnectAttempts ≤ s.reconnectAttempts) : attemptReconnect s = (s, none) := by
  unfold attemptReconnect
  rw [if_pos h]

theorem runWire_append (s : RpcClient) (l1 l2 : List WireOp) :
    runWire s (l1 ++ l2) =
      ((runWire (runWire s l1).1 l2).1,
        (runWire s l1).2 ++ (runWire (runWire s l1).1 l2).2) := by
  induction l1 generalizing s with
  | nil => simp [runWire]
  | cons op rest ih =>
    simp only [List.cons_append, runWire]
    rw [show rest.append l2 = rest ++ l2 from rfl, ih]
    simp [List.append_assoc]

theorem scheduledDelays_append (a b : List WireOut) :
    scheduledDelays (a ++ b) = scheduledDelays a ++ scheduledDelays b := by
  simp [scheduledDelays]

theorem runWire_closed_stall (k : Nat) : ∀ s : RpcClient,
    s.maxReconnectAttempts ≤ s.reconnectAttempts →
    scheduledDelays (runWire s (List.replicate k .socketClosed)).2 = [] := by
  induction k with
  | zero => intro s _; simp [runWire, scheduledDelays]
  | succ m ih =>
    intro s h
    have hstep : wireStep s .socketClosed =
        ({ s with
            wsOpen := false
            authenticated := false
            streams := resetStreamState s.streams }, [.disconnectedEvt]) := by
      unfold wireStep
      dsimp only
      rw [attemptReconnect_capped (by simpa using h)]
      simp
    simp only [List.replicate_succ, runWire, hstep]
    rw [scheduledDelays_append]
    rw [ih _ (by simpa using h)]
    simp [scheduledDelays]

/-- C9: from a fresh client, a run of 5 + k consecutive connection failures
(each failure fires the close handler, hence attemptReconnect) schedules
exactly five retries with delays 1000 ms doubling per attempt
(1000 * 2 ^ (attempt - 1) for attempts 1..5) and nothing after the cap, for
every k; and a successful socket open resets the attempt counter to zero. -/
theorem claim_reconnect_cap_and_backoff :
    (∀ k : Nat,
      scheduledDelays (runWire initRpcClient (List.replicate (5 + k) .socketClosed)).2 =
        [1000 * 2 ^ 0, 1000 * 2 ^ 1, 1000 * 2 ^ 2, 1000 * 2 ^ 3, 1000 * 2 ^ 4]) ∧
    (∀ s : RpcClient, (wireStep s .socketOpen).1.reconnectAttempts = 0) := by
  constructor
  · intro k
    rw [List.replicate_add, runWire_append]
    have h5 : runWire initRpcClient (List.replicate 5 .socketClosed) =
        ({ initRpcClient with reconnectAttempts := 5 },
          [.disconnectedEvt, .reconnectScheduled 1000,
           .disconnectedEvt, .reconnectScheduled 2000,
           .disconnectedEvt, .reconnectScheduled 4000,
           .disconnectedEvt, .reconnectScheduled 8000,
           .disconnectedEvt, .reconnectScheduled 16000]) := by decide
    rw [h5, scheduledDelays_append]
    rw [runWire_closed_stall k { initRpcClient with reconnectAttempts := 5 } (by decide)]
    decide
  · intro s
    rfl

theorem attemptReconnect_requestId (s : RpcClient) :
    (attemptReconnect s).1.requestId = s.requestId := by
  unfold attemptReconnect
  split_ifs <;> rfl

theorem wireStep_frame_bounds (s : RpcClient) (op : WireOp) :
    s.requestId ≤ (wireStep s op).1.requestId ∧
    List.Pairwise (· < ·) (frameIds (wireStep s op).2) ∧
    ∀ i ∈ frameIds (wireStep s op).2, s.requestId < i ∧ i ≤ (wireStep s op).1.requestId := by
  cases op with
  | callOp method =>
    unfold wireStep
    dsimp only
    by_cases h : s.wsOpen
    · simp [h, frameIds]
    · simp [h, frameIds]
  | handshakeOp => simp [wireStep, frameIds]
  | respOp rid ok helloOk =>
    unfold wireStep
    dsimp only
    split_ifs <;> simp [frameIds]
  | timeoutFire rid =>
    unfold wireStep
    dsimp only
    split_ifs <;> simp [frameIds]
  | socketOpen => simp [wireStep, frameIds]
  | socketClosed =>
    unfold wireStep
    dsimp only
    refine ⟨le_of_eq (attemptReconnect_requestId { s with
        wsOpen := false
        authenticated := false
        streams := resetStreamState s.streams }).symm, ?_, ?_⟩ <;>
      rcases hd : (attemptReconnect { s with
          wsOpen := false
          authenticated := false
          streams := resetStreamState s.streams }).2 with _ | ms <;>
        simp [frameIds, hd]
  | disconnectCall => simp [wireStep, frameIds]

theorem runWire_frame_bounds (ops : List WireOp) : ∀ s : RpcClient,
    s.requestId ≤ (runWire s ops).1.requestId ∧
    List.Pairwise (· < ·) (frameIds (runWire s ops).2) ∧
    ∀ i ∈ frameIds (runWire s ops).2,
      s.requestId < i ∧ i ≤ (runWire s ops).1.requestId := by
  induction ops with
  | nil =>
    intro s
    simp [runWire, frameIds]
  | cons op rest ih =>
    intro s
    obtain ⟨hmono1, hpair1, hbound1⟩ := wireStep_frame_bounds s op
    obtain ⟨hmono2, hpair2, hbound2⟩ := ih (wireStep s op).1
    have hframes : frameIds (runWire s (op :: rest)).2 =
        frameIds (wireStep s op).2 ++ frameIds (runWire (wireStep s op).1 rest).2 := by
      show frameIds ((wireStep s op).2 ++ (runWire (wireStep s op).1 rest).2) = _
      simp [frameIds]
    have hstate : (runWire s (op :: rest)).1 = (runWire (wireStep s op).1 rest).1 := rfl
    refine ⟨?_, ?_, ?_⟩
    · rw [hstate]; exact le_trans hmono1 hmono2
    · rw [hframes]
      rw [List.pairwise_append]
      refine ⟨hpair1, hpair2, ?_⟩
      intro a ha b hb
      have h1 := (hbound1 a ha).2
      have h2 := (hbound2 b hb).1
      omega
    · rw [hframes, hstate]
      intro i hi
      rcases List.mem_append.mp hi with hl | hr
      · have h1 := hbound1 i hl
        constructor
        · exact h1.1
        · exact le_trans h1.2 hmono2
      · have h2 := hbound2 i hr
        constructor
        · exact lt_of_le_of_lt hmono1 h2.1
        · exact h2.2

/-- C10: over the whole lifetime of one client instance — any sequence of
calls, handshakes, responses, timeouts, socket opens/closes and
disconnects — the ids of the emitted request frames are strictly
increasing, hence pairwise distinct: no request id is ever reused for two
request frames, even across disconnects and reconnects (the counter is
never reset). -/
theorem claim_request_ids_never_reused (ops : List WireOp) :
    List.Pairwise (· < ·) (frameIds (runWire initRpcClient ops).2) ∧
    (frameIds (runWire initRpcClient ops).2).Nodup := by
  have h := (runWire_frame_bounds ops initRpcClient).2.1
  exact ⟨h, h.imp Nat.ne_of_lt⟩

theorem settleCount_append (a b : List WireOut) (rid : Nat) :
    settleCount (a ++ b) rid = settleCount a rid + settleCount b rid := by
  simp [settleCount, List.count_append]
  omega


theorem wireStep_settle (s : RpcClient) (op : WireOp) (rid : Nat)
    (hinv : RpcInv s) (hrid : rid ≤ s.requestId) :
    RpcInv (wireStep s op).1 ∧ rid ≤ (wireStep s op).1.requestId ∧
    settleCount (wireStep s op).2 rid +
        (if rid ∈ (wireStep s op).1.pending then 1 else 0) =
      (if rid ∈ s.pending then 1 else 0) := by
  obtain ⟨hnd, hle⟩ := hinv
  cases op with
  | callOp method =>
    by_cases h : s.wsOpen
    · have hw : wireStep s (.callOp method) =
          ({ s with requestId := s.requestId + 1, pending := s.pending ++ [s.requestId + 1] },
            [.frameSent (s.requestId + 1) method]) := by
        unfold wireStep
        dsimp only
        rw [if_pos h]
      rw [hw]
      refine ⟨⟨?_, ?_⟩, ?_, ?_⟩
      · show (s.pending ++ [s.requestId + 1]).Nodup
        have hnew : s.requestId + 1 ∉ s.pending := fun hmem => by
          have := hle _ hmem
          omega
        simp [List.nodup_append, hnd, hnew]
      · show ∀ j ∈ s.pending ++ [s.requestId + 1], j ≤ s.requestId + 1
        intro j hj
        rcases List.mem_append.mp hj with hj | hj
        · exact le_trans (hle _ hj) (by omega)
        · simp at hj
          omega
      · show rid ≤ s.requestId + 1
        omega
      · show settleCount [.frameSent (s.requestId + 1) method] rid +
            (if rid ∈ s.pending ++ [s.requestId + 1] then 1 else 0) =
          (if rid ∈ s.pending then 1 else 0)
        have hne : rid ≠ s.requestId + 1 := by omega
        simp [settleCount, List.mem_append, hne]
    · have hw : wireStep s (.callOp method) = (s, [.callRejectedClosed]) := by
        unfold wireStep
        dsimp only
        rw [if_neg h]
      rw [hw]
      exact ⟨⟨hnd, hle⟩, hrid, by simp [settleCount]⟩
  | handshakeOp =>
    refine ⟨⟨hnd, ?_⟩, ?_, ?_⟩
    · show ∀ j ∈ s.pending, j ≤ s.requestId + 1
      exact fun j hj => le_trans (hle j hj) (by omega)
    · show rid ≤ s.requestId + 1
      omega
    · show settleCount [.frameSent (s.requestId + 1) "connect".data] rid +
          (if rid ∈ s.pending then 1 else 0) = (if rid ∈ s.pending then 1 else 0)
      simp [settleCount]
  | respOp rid2 ok helloOk =>
    by_cases hauth : ¬ s.authenticated ∧ ok = true ∧ helloOk = true
    · have hw : wireStep s (.respOp rid2 ok helloOk) =
          ({ s with authenticated := true }, [.connectedEvt]) := by
        unfold wireStep
        dsimp only
        rw [if_pos hauth]
      rw [hw]
      exact ⟨⟨hnd, hle⟩, hrid, by simp [settleCount]⟩
    · by_cases hmem : rid2 ∈ s.pending
      · have hw : wireStep s (.respOp rid2 ok helloOk) =
            ({ s with pending := s.pending.filter (· ≠ rid2) },
              [if ok then .settledOk rid2 else .settledErr rid2]) := by
          unfold wireStep
          dsimp only
          rw [if_neg hauth, if_pos hmem]
        rw [hw]
        refine ⟨⟨hnd.filter _, ?_⟩, hrid, ?_⟩
        · show ∀ j ∈ s.pending.filter (· ≠ rid2), j ≤ s.requestId
          exact fun j hj => hle j (List.mem_of_mem_filter hj)
        · show settleCount [if ok then .settledOk rid2 else .settledErr rid2] rid +
              (if rid ∈ s.pending.filter (· ≠ rid2) then 1 else 0) =
            (if rid ∈ s.pending then 1 else 0)
          by_cases heq : rid = rid2
          · subst heq
            have hnotin : rid ∉ s.pending.filter (fun x => decide (x ≠ rid)) := by
              simp [List.mem_filter]
            cases ok <;> simp [settleCount, hnotin, hmem]
          · have hiff : rid ∈ s.pending.filter (fun x => decide (x ≠ rid2)) ↔
                rid ∈ s.pending := by
              simp [List.mem_filter, heq]
            have hne2 : rid2 ≠ rid := fun h => heq (Eq.symm h)
            cases ok <;> simp [settleCount, hiff, heq, hne2, List.count_cons, List.count_nil]
      · have hw : wireStep s (.respOp rid2 ok helloOk) = (s, []) := by
          unfold wireStep
          dsimp only
          rw [if_neg hauth, if_neg hmem]
        rw [hw]
        exact ⟨⟨hnd, hle⟩, hrid, by simp [settleCount]⟩
  | timeoutFire rid2 =>
    by_cases hmem : rid2 ∈ s.pending
    · have hw : wireStep s (.timeoutFire rid2) =
          ({ s with pending := s.pending.filter (· ≠ rid2) }, [.settledErr rid2]) := by
        unfold wireStep
        dsimp only
        rw [if_pos hmem]
      rw [hw]
      refine ⟨⟨hnd.filter _, ?_⟩, hrid, ?_⟩
      · show ∀ j ∈ s.pending.filter (· ≠ rid2), j ≤ s.requestId
        exact fun j hj => hle j (List.mem_of_mem_filter hj)
      · show settleCount [.settledErr rid2] rid +
            (if rid ∈ s.pending.filter (· ≠ rid2) then 1 else 0) =
          (if rid ∈ s.pending then 1 else 0)
        by_cases heq : rid = rid2
        · subst heq
          have hnotin : rid ∉ s.pending.filter (fun x => decide (x ≠ rid)) := by
            simp [List.mem_filter]
          simp [settleCount, hnotin, hmem]
        · have hiff : rid ∈ s.pending.filter (fun x => decide (x ≠ rid2)) ↔
              rid ∈ s.pending := by
            simp [List.mem_filter, heq]
          have hne2 : rid2 ≠ rid := fun h => heq (Eq.symm h)
          simp [settleCount, hiff, heq, hne2, List.count_cons, List.count_nil]
    · have hw : wireStep s (.timeoutFire rid2) = (s, []) := by
        unfold wireStep
        dsimp only
        rw [if_neg hmem]
      rw [hw]
      exact ⟨⟨hnd, hle⟩, hrid, by simp [settleCount]⟩
  | socketOpen => exact ⟨⟨hnd, hle⟩, hrid, by simp [wireStep, settleCount]⟩
  | socketClosed =>
    have hrec : ∀ t : RpcClient, (attemptReconnect t).1.pending = t.pending ∧
        (attemptReconnect t).1.requestId = t.requestId := by
      intro t
      unfold attemptReconnect
      split_ifs <;> exact ⟨rfl, rfl⟩
    have hw : (wireStep s .socketClosed).1 =
        (attemptReconnect { s with
          wsOpen := false
          authenticated := false
          streams := resetStreamState s.streams }).1 := rfl
    obtain ⟨hp, hq⟩ := hrec { s with
      wsOpen := false
      authenticated := false
      streams := resetStreamState s.streams }
    refine ⟨⟨?_, ?_⟩, ?_, ?_⟩
    · rw [hw, hp]
      exact hnd
    · intro j hj
      rw [hw, hp] at hj
      rw [hw, hq]
      exact hle j hj
    · rw [hw, hq]
      exact hrid
    · rw [hw, hp]
      show settleCount (wireStep s .socketClosed).2 rid + _ = _
      have houts : settleCount (wireStep s .socketClosed).2 rid = 0 := by
        show settleCount ([.disconnectedEvt] ++
          (match (attemptReconnect { s with
            wsOpen := false
            authenticated := false
            streams := resetStreamState s.streams }).2 with
          | some ms => [WireOut.reconnectScheduled ms]
          | none => [])) rid = 0
        rcases (attemptReconnect { s with
            wsOpen := false
            authenticated := false
            streams := resetStreamState s.streams }).2 with _ | ms <;>
          simp [settleCount]
      rw [houts]
      simp
  | disconnectCall => exact ⟨⟨hnd, hle⟩, hrid, by simp [wireStep, settleCount]⟩

theorem runWire_settle (ops : List WireOp) : ∀ (s : RpcClient) (rid : Nat),
    RpcInv s → rid ≤ s.requestId →
    RpcInv (runWire s ops).1 ∧ rid ≤ (runWire s ops).1.requestId ∧
    settleCount (runWire s ops).2 rid +
        (if rid ∈ (runWire s ops).1.pending then 1 else 0) =
      (if rid ∈ s.pending then 1 else 0) := by
  induction ops with
  | nil =>
    intro s rid hinv hrid
    exact ⟨hinv, hrid, by simp [runWire, settleCount]⟩
  | cons op rest ih =>
    intro s rid hinv hrid
    obtain ⟨hinv1, hrid1, heq1⟩ := wireStep_settle s op rid hinv hrid
    obtain ⟨hinv2, hrid2, heq2⟩ := ih (wireStep s op).1 rid hinv1 hrid1
    have houts : (runWire s (op :: rest)).2 =
        (wireStep s op).2 ++ (runWire (wireStep s op).1 rest).2 := rfl
    have hst : (runWire s (op :: rest)).1 = (runWire (wireStep s op).1 rest).1 := rfl
    refine ⟨by rw [hst]; exact hinv2, by rw [hst]; exact hrid2, ?_⟩
    rw [houts, hst, settleCount_append]
    omega

theorem timeoutFire_removes (s : RpcClient) (rid : Nat) :
    rid ∉ (wireStep s (.timeoutFire rid)).1.pending := by
  unfold wireStep
  dsimp only
  by_cases hmem : rid ∈ s.pending
  · rw [if_pos hmem]
    simp [List.mem_filter]
  · rw [if_neg hmem]
    exact hmem

/-- C7: (i) call() with the transport not open leaves the state untouched
and produces only the immediate rejection — no frame is sent and no pending
entry is created; (ii) along any run of operations from a well-formed
state, a request id is settled at most once (never both resolve and
reject, never twice); (iii) if the run contains the firing of the id's
30-second timeout, the id is settled exactly once — by the earlier matched
response if one arrived, otherwise by the timeout itself. -/
theorem claim_exactly_once_settlement :
    (∀ (s : RpcClient) (method : Str), s.wsOpen = false →
      wireStep s (.callOp method) = (s, [.callRejectedClosed])) ∧
    (∀ (s : RpcClient) (ops : List WireOp) (rid : Nat), RpcInv s → rid ≤ s.requestId →
      settleCount (runWire s ops).2 rid ≤ 1) ∧
    (∀ (s : RpcClient) (pre post : List WireOp) (rid : Nat), RpcInv s →
      rid ∈ s.pending → rid ≤ s.requestId →
      settleCount (runWire s (pre ++ .timeoutFire rid :: post)).2 rid = 1) := by
  refine ⟨?_, ?_, ?_⟩
  · intro s method h
    unfold wireStep
    dsimp only
    rw [if_neg (by simp [h])]
  · intro s ops rid hinv hrid
    obtain ⟨_, _, heq⟩ := runWire_settle ops s rid hinv hrid
    by_cases hmem : rid ∈ s.pending <;> simp [hmem] at heq <;> omega
  · intro s pre post rid hinv hmem hrid
    rw [runWire_append]
    obtain ⟨hinv1, hrid1, heq1⟩ := runWire_settle pre s rid hinv hrid
    set s1 := (runWire s pre).1 with hs1
    obtain ⟨hinv2, hrid2, heq2⟩ := wireStep_settle s1 (.timeoutFire rid) rid hinv1 hrid1
    obtain ⟨hinv3, hrid3, heq3⟩ :=
      runWire_settle post (wireStep s1 (.timeoutFire rid)).1 rid hinv2 hrid2
    have hgone : rid ∉ (wireStep s1 (.timeoutFire rid)).1.pending := timeoutFire_removes s1 rid
    have hrunsplit : runWire s1 (WireOp.timeoutFire rid :: post) =
        ((runWire (wireStep s1 (.timeoutFire rid)).1 post).1,
          (wireStep s1 (.timeoutFire rid)).2 ++
            (runWire (wireStep s1 (.timeoutFire rid)).1 post).2) := rfl
    rw [settleCount_append, hrunsplit]
    dsimp only
    rw [settleCount_append]
    simp only [hmem, if_pos] at heq1
    simp only [hgone, if_neg, not_false_iff] at heq2 heq3
    by_cases hmid : rid ∈ s1.pending <;> simp [hmid] at heq1 heq2 <;> omega

/-- Witness for C7: a client with one pending call (id 1) whose timeout
fires is settled exactly once. -/
theorem claim_exactly_once_settlement_witness :
    settleCount (runWire { initRpcClient with requestId := 1, pending := [1], wsOpen := true }
        ([] ++ .timeoutFire 1 :: [])).2 1 = 1 :=
  claim_exactly_once_settlement.2.2
    { initRpcClient with requestId := 1, pending := [1], wsOpen := true } [] [] 1
    (by constructor <;> simp) (by simp) (by simp)

/-- C5 counterexample: with two calls outstanding (pending ids 1 and 2),
running the socket close handler clears the per-session stream table but
leaves both pending entries in place and settles neither — contradicting
the claim that every outstanding promise is rejected and its entry removed
when the connection drops. -/
theorem claim_close_fails_pending_counterexample :
    (runWire initRpcClient
        [.socketOpen, .callOp "a".data, .callOp "b".data, .socketClosed]).1.pending = [1, 2] ∧
    (runWire initRpcClient
        [.socketOpen, .callOp "a".data, .callOp "b".data, .socketClosed]).1.streams =
      emptyStreamClient ∧
    settleCount (runWire initRpcClient
        [.socketOpen, .callOp "a".data, .callOp "b".data, .socketClosed]).2 1 = 0 ∧
    settleCount (runWire initRpcClient
        [.socketOpen, .callOp "a".data, .callOp "b".data, .socketClosed]).2 2 = 0 := by
  decide

/-- C5 amended: on connection drop the close handler clears the stream
table and the authenticated flag but leaves the pending table untouched and
settles nothing; each outstanding call is failed later, by its own
30-second timeout firing (or by a matching response), not at close time. -/
theorem claim_close_preserves_pending_amended :
    (∀ s : RpcClient,
      (wireStep s .socketClosed).1.pending = s.pending ∧
      (wireStep s .socketClosed).1.streams = emptyStreamClient ∧
      (wireStep s .socketClosed).1.authenticated = false ∧
      ∀ rid, settleCount (wireStep s .socketClosed).2 rid = 0) ∧
    (∀ (s : RpcClient) (rid : Nat), rid ∈ s.pending →
      wireStep s (.timeoutFire rid) =
        ({ s with pending := s.pending.filter (· ≠ rid) }, [.settledErr rid])) := by
  constructor
  · intro s
    have hfields : ∀ t : RpcClient, (attemptReconnect t).1.pending = t.pending ∧
        (attemptReconnect t).1.streams = t.streams ∧
        (attemptReconnect t).1.authenticated = t.authenticated := by
      intro t
      unfold attemptReconnect
      split_ifs <;> exact ⟨rfl, rfl, rfl⟩
    have hw : (wireStep s .socketClosed).1 =
        (attemptReconnect { s with
          wsOpen := false
          authenticated := false
          streams := resetStreamState s.streams }).1 := rfl
    obtain ⟨hp, hs, ha⟩ := hfields { s with
      wsOpen := false
      authenticated := false
      streams := resetStreamState s.streams }
    refine ⟨by rw [hw, hp], by rw [hw, hs]; rfl, by rw [hw, ha], ?_⟩
    intro rid
    show settleCount ([.disconnectedEvt] ++
      (match (attemptReconnect { s with
        wsOpen := false
        authenticated := false
        streams := resetStreamState s.streams }).2 with
      | some ms => [WireOut.reconnectScheduled ms]
      | none => [])) rid = 0
    rcases (attemptReconnect { s with
        wsOpen := false
        authenticated := false
        streams := resetStreamState s.streams }).2 with _ | ms <;>
      simp [settleCount]
  · intro s rid hmem
    unfold wireStep
    dsimp only
    rw [if_pos hmem]

/-- Witness for C5 amended: the timeout of the single pending id 1 settles
it with a rejection and removes the entry. -/
theorem claim_close_preserves_pending_amended_witness :
    wireStep { initRpcClient with requestId := 1, pending := [1] } (.timeoutFire 1) =
      ({ initRpcClient with requestId := 1, pending := [1].filter (· ≠ 1) },
        [.settledErr 1]) :=
  claim_close_preserves_pending_amended.2
    { initRpcClient with requestId := 1, pending := [1] } 1 (by simp)

theorem lookupStream_set_same (m : List (Str × SessionStreamState)) (k : Str)
    (v : SessionStreamState) : lookupStream (setStream m k v) k = some v := by
  induction m with
  | nil => simp [setStream, lookupStream]
  | cons kv rest ih =>
    obtain ⟨k1, v1⟩ := kv
    by_cases h : k1 = k
    · simp [setStream, h, lookupStream]
    · simp [setStream, h, lookupStream, ih]

theorem lookupStream_del_same (m : List (Str × SessionStreamState)) (k : Str) :
    lookupStream (delStream m k) k = none := by
  induction m with
  | nil => rfl
  | cons kv rest ih =>
    obtain ⟨k1, v1⟩ := kv
    by_cases h : k1 = k
    · simpa [delStream, h] using ih
    · simpa [delStream, h, lookupStream] using ih

theorem maybeEmit_events (c : StreamClient) (rid : Option Str) (sk : Str) :
    (maybeEmitSessionKey c rid sk).2 = [] ∨
      (maybeEmitSessionKey c rid sk).2 = [.streamSessionKey rid sk] := by
  unfold maybeEmitSessionKey
  by_cases h1 : c.sessionKeyResolved
  · rw [if_pos h1]
    exact Or.inl rfl
  · rw [if_neg h1]
    rcases hdef : c.defaultSessionKey with _ | dk
    · exact Or.inl rfl
    · dsimp only
      split_ifs <;> simp

theorem ensureStream_events (c : StreamClient) (ss : SessionStreamState)
    (source : StreamSource) (hint : StreamMode) (rid : Option Str) (sk : Str) :
    (ensureStream c ss source hint rid sk).2.2 = (maybeEmitSessionKey c rid sk).2 ∨
      (ensureStream c ss source hint rid sk).2.2 =
        (maybeEmitSessionKey c rid sk).2 ++ [.streamStart sk] := by
  unfold ensureStream
  dsimp only
  split_ifs <;> simp

theorem applyStreamText_events (ss : SessionStreamState) (t sk : Str) :
    (applyStreamText ss t sk).2 = [] ∨
      ∃ t2, (applyStreamText ss t sk).2 = [.streamChunk t2 sk] := by
  unfold applyStreamText
  dsimp only
  split_ifs <;> simp

theorem subagent_not_in_maybeEmit (c : StreamClient) (rid : Option Str) (sk k : Str) :
    OutEvent.subagentDetected k ∉ (maybeEmitSessionKey c rid sk).2 := by
  rcases maybeEmit_events c rid sk with h | h <;> rw [h] <;> simp

theorem subagent_not_in_ensure (c : StreamClient) (ss : SessionStreamState)
    (source : StreamSource) (hint : StreamMode) (rid : Option Str) (sk k : Str) :
    OutEvent.subagentDetected k ∉ (ensureStream c ss source hint rid sk).2.2 := by
  rcases ensureStream_events c ss source hint rid sk with h | h <;> rw [h]
  · exact subagent_not_in_maybeEmit c rid sk k
  · intro hmem
    rcases List.mem_append.mp hmem with h2 | h2
    · exact subagent_not_in_maybeEmit c rid sk k h2
    · simp at h2

theorem subagent_not_in_chatDelta (c : StreamClient) (sk : Str) (rid : Option Str)
    (mc : Option ContentVal) (delta : Option Str) (k : Str) :
    OutEvent.subagentDetected k ∉ (handleChatDelta c sk rid mc delta).2 := by
  unfold handleChatDelta
  dsimp only
  split_ifs
  · exact subagent_not_in_ensure _ _ _ _ _ _ k
  · exact subagent_not_in_ensure _ _ _ _ _ _ k
  · intro hmem
    rcases List.mem_append.mp hmem with h | h
    · exact subagent_not_in_ensure _ _ _ _ _ _ k h
    · rcases applyStreamText_events _ _ _ with h2 | ⟨t2, h2⟩ <;> rw [h2] at h <;> simp at h

theorem subagent_not_in_chatFinal (c : StreamClient) (now : Nat) (sk : Str)
    (esk : Option Str) (rid : Option Str) (message : Option ChatFinalMessage) (k : Str) :
    OutEvent.subagentDetected k ∉ (handleChatFinal c now sk esk rid message).2 := by
  unfold handleChatFinal
  dsimp only
  intro hmem
  rcases List.mem_append.mp hmem with h | h
  · rcases List.mem_append.mp h with h2 | h2
    · exact subagent_not_in_maybeEmit _ _ _ k h2
    · rcases message with _ | pm
      · simp at h2
      · dsimp only at h2
        split_ifs at h2 <;> simp at h2
  · split_ifs at h <;> simp at h

theorem subagent_not_in_agentAssistant (c : StreamClient) (sk : Str) (rid : Option Str)
    (data : AgentAssistantData) (k : Str) :
    OutEvent.subagentDetected k ∉ (handleAgentAssistant c sk rid data).2 := by
  unfold handleAgentAssistant
  dsimp only
  split_ifs <;> (try exact subagent_not_in_ensure _ _ _ _ _ _ k) <;>
    (intro hmem
     rcases List.mem_append.mp hmem with h | h
     · exact subagent_not_in_ensure _ _ _ _ _ _ k h
     · rcases applyStreamText_events _ _ _ with h2 | ⟨t2, h2⟩ <;> rw [h2] at h <;> simp at h)

theorem subagent_not_in_agentTool (c : StreamClient) (now : Nat) (sk : Str)
    (esk : Option Str) (rid : Option Str) (data : Option AgentToolData) (k : Str) :
    OutEvent.subagentDetected k ∉ (handleAgentTool c now sk esk rid data).2 := by
  unfold handleAgentTool
  dsimp only
  intro hmem
  rcases List.mem_append.mp hmem with h | h
  · rcases List.mem_append.mp h with h2 | h2
    · exact subagent_not_in_maybeEmit _ _ _ k h2
    · split_ifs at h2 <;> simp at h2
  · simp at h

theorem subagent_not_in_agentLifecycle (c : StreamClient) (sk : Str) (esk : Option Str)
    (rid : Option Str) (data : Option AgentLifecycleData) (k : Str) :
    OutEvent.subagentDetected k ∉ (handleAgentLifecycle c sk esk rid data).2 := by
  unfold handleAgentLifecycle
  dsimp only
  split_ifs <;> intro hmem
  · rcases List.mem_append.mp hmem with h | h
    · exact subagent_not_in_maybeEmit _ _ _ k h
    · simp at h
  · exact subagent_not_in_maybeEmit _ _ _ k hmem
  · exact subagent_not_in_maybeEmit _ _ _ k hmem

theorem subagent_not_in_body (c : StreamClient) (now : Nat) (n : Notification) (sk k : Str) :
    OutEvent.subagentDetected k ∉ (handleNotificationBody c now n sk).2 := by
  cases n with
  | chatDelta esk rid mc delta => exact subagent_not_in_chatDelta _ _ _ _ _ k
  | chatFinal esk rid message => exact subagent_not_in_chatFinal _ _ _ _ _ _ k
  | chatOther esk => simp [handleNotificationBody]
  | presence esk => simp [handleNotificationBody]
  | agentAssistant esk rid data => exact subagent_not_in_agentAssistant _ _ _ _ k
  | agentTool esk rid data => exact subagent_not_in_agentTool _ _ _ _ _ _ k
  | agentLifecycle esk rid data => exact subagent_not_in_agentLifecycle _ _ _ _ _ k
  | agentOther esk => simp [handleNotificationBody]
  | otherEvent name esk => simp [handleNotificationBody]

/-- C6 counterexample: after the user sends to session "p" (parent set is
nonempty and the send cycle is resolved by the first chat event), two
successive presence events bearing the same unseen key "s" each emit
subagentDetected — the notification fires twice for one unseen key, not
exactly once, because nothing records "already notified". -/
theorem claim_subagent_once_counterexample :
    "s".data ∉ (setPrimarySessionKey emptyStreamClient (some "p".data)).parentSessionKeys ∧
    (runNotifications (setPrimarySessionKey emptyStreamClient (some "p".data)) 0
        [.chatDelta (some "p".data) none none none,
         .presence (some "s".data), .presence (some "s".data)]).2.count
      (.subagentDetected "s".data) = 2 := by
  decide

/-- C6 amended: subagentDetected for key k is emitted by every processed
event whose payload bears session key k, whenever the parent set is
nonempty, k is nonempty and k is not in the parent set — once per such
event (and only then), with no deduplication per key. -/
theorem claim_subagent_every_event_amended (c : StreamClient) (now : Nat)
    (n : Notification) (k : Str) :
    (handleNotification c now n).2.count (.subagentDetected k) =
      if c.parentSessionKeys ≠ [] ∧ notifSessionKey n = some k ∧ k ≠ [] ∧
          k ∉ c.parentSessionKeys then 1 else 0 := by
  have hbody :=
    subagent_not_in_body c now n (resolveEventSessionKey c (notifSessionKey n)) k
  show (subagentCheck c (notifSessionKey n) ++
      (handleNotificationBody c now n (resolveEventSessionKey c (notifSessionKey n))).2).count
        (.subagentDetected k) = _
  rw [List.count_append, List.count_eq_zero.mpr hbody, Nat.add_zero]
  unfold subagentCheck
  rcases hk2 : notifSessionKey n with _ | k2
  · simp
  · dsimp only
    by_cases hcond : c.parentSessionKeys ≠ [] ∧ k2 ≠ [] ∧ k2 ∉ c.parentSessionKeys
    · rw [if_pos hcond]
      by_cases heq : k2 = k
      · subst heq
        simp [hcond]
      · have hne : ¬ (c.parentSessionKeys ≠ [] ∧ some k2 = some k ∧ k ≠ [] ∧
            k ∉ c.parentSessionKeys) := by
          intro h
          exact heq (Option.some_inj.mp h.2.1)
        rw [if_neg hne]
        simp [List.count_cons, List.count_nil, heq]
    · rw [if_neg hcond]
      have hne : ¬ (c.parentSessionKeys ≠ [] ∧ some k2 = some k ∧ k ≠ [] ∧
          k ∉ c.parentSessionKeys) := by
        intro h
        exact hcond ⟨h.1, by rw [Option.some_inj.mp h.2.1]; exact h.2.2.1,
          by rw [Option.some_inj.mp h.2.1]; exact h.2.2.2⟩
      rw [if_neg hne]
      simp

theorem maybeEmit_streams (c : StreamClient) (rid : Option Str) (sk : Str) :
    (maybeEmitSessionKey c rid sk).1.sessionStreams = c.sessionStreams := by
  unfold maybeEmitSessionKey
  by_cases h1 : c.sessionKeyResolved
  · rw [if_pos h1]
  · rw [if_neg h1]
    rcases hdef : c.defaultSessionKey with _ | dk
    · rfl
    · dsimp only
      split_ifs <;> rfl

theorem ensureStream_other_source (c : StreamClient) (ss : SessionStreamState)
    (src src2 : StreamSource) (hint : StreamMode) (rid : Option Str) (sk : Str)
    (hsrc : ss.source = some src2) (hne : src2 ≠ src) :
    ensureStream c ss src hint rid sk =
      ((maybeEmitSessionKey c rid sk).1,
        if rid.isSome ∧ ss.runId = none then { ss with runId := rid } else ss,
        (maybeEmitSessionKey c rid sk).2) := by
  unfold ensureStream
  dsimp only
  split_ifs <;> first
    | rfl
    | (exfalso; simp_all)

theorem agentAssistant_chat_owned (c : StreamClient) (sk : Str) (rid : Option Str)
    (d : AgentAssistantData) (ss : SessionStreamState)
    (hl : lookupStream c.sessionStreams sk = some ss) (hsrc : ss.source = some .chat) :
    handleAgentAssistant c sk rid d =
      ({ (maybeEmitSessionKey c rid sk).1 with
          sessionStreams := setStream c.sessionStreams sk
            (if rid.isSome ∧ ss.runId = none then { ss with runId := rid } else ss) },
        (maybeEmitSessionKey c rid sk).2) := by
  have hget : getStream c.sessionStreams sk = (ss, c.sessionStreams) := by
    unfold getStream
    rw [hl]
  unfold handleAgentAssistant
  rw [hget]
  dsimp only
  rw [ensureStream_other_source _ ss .agent .chat _ rid sk hsrc (by decide)]
  dsimp only
  have hguard : (if rid.isSome ∧ ss.runId = none then { ss with runId := rid } else ss).source ≠
      some StreamSource.agent := by
    split_ifs <;> simp_all
  rw [if_pos hguard, maybeEmit_streams]

theorem chatDelta_agent_owned (c : StreamClient) (sk : Str) (rid : Option Str)
    (mc : Option ContentVal) (delta : Option Str) (ss : SessionStreamState)
    (hl : lookupStream c.sessionStreams sk = some ss) (hsrc : ss.source = some .agent) :
    handleChatDelta c sk rid mc delta =
      ({ (maybeEmitSessionKey c rid sk).1 with
          sessionStreams := setStream c.sessionStreams sk
            (if rid.isSome ∧ ss.runId = none then { ss with runId := rid } else ss) },
        (maybeEmitSessionKey c rid sk).2) := by
  have hget : getStream c.sessionStreams sk = (ss, c.sessionStreams) := by
    unfold getStream
    rw [hl]
  unfold handleChatDelta
  rw [hget]
  dsimp only
  rw [ensureStream_other_source _ ss .chat .agent _ rid sk hsrc (by decide)]
  dsimp only
  have hguard : (if rid.isSome ∧ ss.runId = none then { ss with runId := rid } else ss).source ≠
      some StreamSource.chat := by
    split_ifs <;> simp_all
  rw [if_pos hguard, maybeEmit_streams]

theorem resolve_some_nonempty (c : StreamClient) (sk : Str) (hk : sk ≠ []) :
    resolveEventSessionKey c (some sk) = sk := by
  unfold resolveEventSessionKey
  dsimp only
  rw [if_pos hk]

/-- C4 counterexample: after a chat delta claims session "k" (source =
chat, runId = null), an agent-channel assistant fragment carrying runId
"r1" for the same key emits nothing — but it does mutate the state: the
SessionStreamState's runId field changes from none to "r1", contradicting
"no field of that SessionStreamState is mutated". -/
theorem claim_first_writer_wins_counterexample :
    ((lookupStream (runNotifications emptyStreamClient 0
        [.chatDelta (some "k".data) none none (some "hi".data)]).1.sessionStreams
        "k".data).map SessionStreamState.source = some (some .chat)) ∧
    ((lookupStream (runNotifications emptyStreamClient 0
        [.chatDelta (some "k".data) none none (some "hi".data)]).1.sessionStreams
        "k".data).map SessionStreamState.runId = some none) ∧
    ((handleNotification (runNotifications emptyStreamClient 0
        [.chatDelta (some "k".data) none none (some "hi".data)]).1 0
        (.agentAssistant (some "k".data) (some "r1".data)
          { text := none, delta := some "x".data })).2 = []) ∧
    ((lookupStream (handleNotification (runNotifications emptyStreamClient 0
        [.chatDelta (some "k".data) none none (some "hi".data)]).1 0
        (.agentAssistant (some "k".data) (some "r1".data)
          { text := none, delta := some "x".data })).1.sessionStreams
        "k".data).map SessionStreamState.runId = some (some "r1".data)) := by
  decide

/-- C4 amended: once a session's state is claimed by the chat channel,
an agent-channel assistant fragment for the same key emits no
streamChunk / streamStart / streamEnd / message and leaves every field of
the SessionStreamState unchanged except runId, which the ignored fragment
may still set when it was null and the fragment carries a string runId
(and symmetrically with the two channels swapped). -/
theorem claim_first_writer_wins_amended (c : StreamClient) (now : Nat) (sk : Str)
    (rid : Option Str) (ss : SessionStreamState) (hk : sk ≠ [])
    (hl : lookupStream c.sessionStreams sk = some ss) :
    (∀ d : AgentAssistantData, ss.source = some .chat →
      lookupStream
          (handleNotification c now (.agentAssistant (some sk) rid d)).1.sessionStreams sk =
        some (if rid.isSome ∧ ss.runId = none then { ss with runId := rid } else ss) ∧
      ∀ ev ∈ (handleNotification c now (.agentAssistant (some sk) rid d)).2,
        (∀ t k2, ev ≠ .streamChunk t k2) ∧ (∀ k2, ev ≠ .streamStart k2) ∧
        (∀ k2, ev ≠ .streamEnd k2) ∧ (∀ m, ev ≠ .messageEvt m)) ∧
    (∀ (mc : Option ContentVal) (delta : Option Str), ss.source = some .agent →
      lookupStream
          (handleNotification c now (.chatDelta (some sk) rid mc delta)).1.sessionStreams sk =
        some (if rid.isSome ∧ ss.runId = none then { ss with runId := rid } else ss) ∧
      ∀ ev ∈ (handleNotification c now (.chatDelta (some sk) rid mc delta)).2,
        (∀ t k2, ev ≠ .streamChunk t k2) ∧ (∀ k2, ev ≠ .streamStart k2) ∧
        (∀ k2, ev ≠ .streamEnd k2) ∧ (∀ m, ev ≠ .messageEvt m)) := by
  have hres := resolve_some_nonempty c sk hk
  constructor
  · intro d hsrc
    have hbody : handleNotification c now (.agentAssistant (some sk) rid d) =
        ((handleAgentAssistant c sk rid d).1,
          subagentCheck c (some sk) ++ (handleAgentAssistant c sk rid d).2) := by
      unfold handleNotification
      dsimp only [notifSessionKey]
      rw [hres]
      rfl
    rw [hbody, agentAssistant_chat_owned c sk rid d ss hl hsrc]
    refine ⟨?_, ?_⟩
    · exact lookupStream_set_same _ _ _
    · intro ev hmem
      dsimp only at hmem
      rcases List.mem_append.mp hmem with h | h
      · unfold subagentCheck at h
        dsimp only at h
        split_ifs at h
        · simp at h
          subst h
          exact ⟨by simp, by simp, by simp, by simp⟩
        · simp at h
      · rcases maybeEmit_events c rid sk with h2 | h2 <;> rw [h2] at h
        · simp at h
        · simp at h
          subst h
          exact ⟨by simp, by simp, by simp, by simp⟩
  · intro mc delta hsrc
    have hbody : handleNotification c now (.chatDelta (some sk) rid mc delta) =
        ((handleChatDelta c sk rid mc delta).1,
          subagentCheck c (some sk) ++ (handleChatDelta c sk rid mc delta).2) := by
      unfold handleNotification
      dsimp only [notifSessionKey]
      rw [hres]
      rfl
    rw [hbody, chatDelta_agent_owned c sk rid mc delta ss hl hsrc]
    refine ⟨?_, ?_⟩
    · exact lookupStream_set_same _ _ _
    · intro ev hmem
      dsimp only at hmem
      rcases List.mem_append.mp hmem with h | h
      · unfold subagentCheck at h
        dsimp only at h
        split_ifs at h
        · simp at h
          subst h
          exact ⟨by simp, by simp, by simp, by simp⟩
        · simp at h
      · rcases maybeEmit_events c rid sk with h2 | h2 <;> rw [h2] at h
        · simp at h
        · simp at h
          subst h
          exact ⟨by simp, by simp, by simp, by simp⟩

/-- Witness for C4 amended: a chat-owned state for key "k" with null runId,
hit by an agent assistant fragment carrying runId "r1". -/
theorem claim_first_writer_wins_amended_witness :
    lookupStream (handleNotification
        { sessionStreams := [("k".data,
            { source := some .chat
              text := "hi".data
              mode := some .cumulative
              blockOffset := 0
              started := true
              runId := none })]
          parentSessionKeys := []
          defaultSessionKey := none
          sessionKeyResolved := false } 0
        (.agentAssistant (some "k".data) (some "r1".data)
          { text := none, delta := some "x".data })).1.sessionStreams "k".data =
      some (if (some "r1".data).isSome ∧ (none : Option Str) = none then
        { source := some .chat
          text := "hi".data
          mode := some .cumulative
          blockOffset := 0
          started := true
          runId := some "r1".data }
      else
        { source := some .chat
          text := "hi".data
          mode := some .cumulative
          blockOffset := 0
          started := true
          runId := none }) :=
  ((claim_first_writer_wins_amended
      { sessionStreams := [("k".data,
          { source := some .chat
            text := "hi".data
            mode := some .cumulative
            blockOffset := 0
            started := true
            runId := none })]
        parentSessionKeys := []
        defaultSessionKey := none
        sessionKeyResolved := false } 0 "k".data (some "r1".data)
      { source := some .chat
        text := "hi".data
        mode := some .cumulative
        blockOffset := 0
        started := true
        runId := none } (by decide) (by decide)).1
    { text := none, delta := some "x".data } (by decide)).1

/-- C8 counterexample: on a chat final event whose content blocks carry a
thinking block "HEARTBEAT_OK" followed by a BEL control character, the
emitted Message's thinking field is that raw string, unchanged — although
both control-sequence stripping and heartbeat substitution would have
changed it (and the text content of the same Message did get both).  So
the claim that both transformations are applied to the reasoning text is
false; the stream-end/deletion behaviour is as claimed. -/
theorem claim_final_thinking_counterexample :
    ((handleNotification emptyStreamClient 0 (.chatFinal (some "k".data) none (some
        { msgId := some "m1".data
          role := "assistant".data
          content := .blocks [.textBlock "hi".data,
            .thinkingBlock ("HEARTBEAT_OK".data ++ ['\x07'])]
          timestamp := some 5 }))).2 =
      [.messageEvt
        { msgId := "m1".data
          role := "assistant".data
          content := "hi".data
          thinking := some ("HEARTBEAT_OK".data ++ ['\x07'])
          timestampMs := 5000
          sessionKey := some "k".data }]) ∧
    stripAnsi ("HEARTBEAT_OK".data ++ ['\x07']) ≠ "HEARTBEAT_OK".data ++ ['\x07'] ∧
    heartbeatSubst ("HEARTBEAT_OK".data ++ ['\x07']) ≠ "HEARTBEAT_OK".data ++ ['\x07'] ∧
    (handleNotification emptyStreamClient 0 (.chatFinal (some "k".data) none (some
        { msgId := some "m1".data
          role := "assistant".data
          content := .blocks [.textBlock "hi".data,
            .thinkingBlock ("HEARTBEAT_OK".data ++ ['\x07'])]
          timestamp := some 5 }))).1.sessionStreams = [] := by
  decide

/-- C8 amended: on a chat final event with block-array content, the emitted
Message applies heartbeat substitution and control-sequence stripping to
the text content only; the reasoning text is the first thinking block's
string taken verbatim; then streamEnd is emitted exactly when a stream was
started for this state; finally the SessionStreamState for the session key
is deleted. -/
theorem claim_final_message_amended (c : StreamClient) (now : Nat) (sk : Str)
    (esk : Option Str) (rid : Option Str) (pm : ChatFinalMessage) (bs : List ContentBlock)
    (s : Str) (hc : pm.content = .blocks bs) (ht : firstThinking bs = some s)
    (hne : extractTextFromContent pm.content ≠ []) :
    (handleChatFinal c now sk esk rid (some pm)).2 =
      (maybeEmitSessionKey { c with
          sessionStreams := (getStream c.sessionStreams sk).2 } rid sk).2 ++
      [.messageEvt
        { msgId := jsStrOr pm.msgId (jsStrOr rid ("msg-".data ++ natToStr now))
          role := pm.role
          content := heartbeatSubst (extractTextFromContent pm.content)
          thinking := some s
          timestampMs := (match pm.timestamp with
            | some t => if t > 1000000000000 then t else t * 1000
            | none => now)
          sessionKey := esk }] ++
      (if (getStream c.sessionStreams sk).1.started then [.streamEnd esk] else []) ∧
    lookupStream (handleChatFinal c now sk esk rid (some pm)).1.sessionStreams sk = none := by
  constructor
  · unfold handleChatFinal
    dsimp only
    rw [if_neg hne, hc]
    dsimp only
    rw [ht]
  · unfold handleChatFinal
    dsimp only
    exact lookupStream_del_same _ _

/-- Witness for C8 amended: a concrete final message with a thinking block
"deep" has its state deleted after handling. -/
theorem claim_final_message_amended_witness :
    lookupStream (handleChatFinal emptyStreamClient 0 "k".data (some "k".data) none (some
        { msgId := some "m1".data
          role := "assistant".data
          content := .blocks [.textBlock "hi".data, .thinkingBlock "deep".data]
          timestamp := none })).1.sessionStreams "k".data = none :=
  (claim_final_message_amended emptyStreamClient 0 "k".data (some "k".data) none
    { msgId := some "m1".data
      role := "assistant".data
      content := .blocks [.textBlock "hi".data, .thinkingBlock "deep".data]
      timestamp := none }
    [.textBlock "hi".data, .thinkingBlock "deep".data] "deep".data rfl (by decide)
    (by decide)).2

theorem ensureStream_stable (c : StreamClient) (ss : SessionStreamState)
    (src : StreamSource) (hint : StreamMode) (rid : Option Str) (sk : Str)
    (hsrc : ss.source = some src) (hst : ss.started = true) (hrid : ss.runId.isSome)
    (hm : ss.mode.isSome) (hres : c.sessionKeyResolved = true) :
    ensureStream c ss src hint rid sk = (c, ss, []) := by
  unfold ensureStream maybeEmitSessionKey
  dsimp only
  rw [if_pos hres]
  dsimp only
  split_ifs <;> first
    | rfl
    | (exfalso; simp_all)

/-- C3 counterexample: a stream whose first agent fragment is delta-shaped
has its mode field detected as delta; a later canonical-shaped fragment of
the same stream is nevertheless merged cumulatively (the accumulated text
becomes "ab" + separator + "b"), while merging it under the first-detected
delta mode would have been a no-op (the fragment "b" is a suffix of "ab").
So later fragments are not merged under the mode detected at the first
fragment. -/
theorem claim_mode_detected_once_counterexample :
    (lookupStream (runNotifications emptyStreamClient 0
        [.agentAssistant (some "k".data) none
          { text := none, delta := some "ab".data }]).1.sessionStreams "k".data =
      some { source := some .agent
             text := "ab".data
             mode := some .delta
             blockOffset := 0
             started := true
             runId := none }) ∧
    ((lookupStream (handleNotification (runNotifications emptyStreamClient 0
        [.agentAssistant (some "k".data) none
          { text := none, delta := some "ab".data }]).1 0
        (.agentAssistant (some "k".data) none
          { text := some "b".data, delta := none })).1.sessionStreams "k".data).map
      SessionStreamState.text = some "ab\n\nb".data) ∧
    processFragment
        { source := some .agent
          text := "ab".data
          mode := some .delta
          blockOffset := 0
          started := true
          runId := none } "b".data .delta "k".data =
      ({ source := some .agent
         text := "ab".data
         mode := some .delta
         blockOffset := 0
         started := true
         runId := none }, []) ∧
    ("ab\n\nb".data ≠ "ab".data) := by
  decide

/-- C3 amended: the mode field is detected once — ensureStream assigns it
only when unset, and neither mergeIncoming nor applyStreamText (the only
other mutators of the state) ever changes it — but the field is never
consulted: each agent assistant fragment is merged under the hint derived
from that fragment's own shape (canonical text present: cumulative;
delta-only: delta), whatever mode the state stores. -/
theorem claim_mode_field_amended :
    (∀ (c : StreamClient) (ss : SessionStreamState) (src : StreamSource)
        (hint : StreamMode) (rid : Option Str) (sk : Str) (m : StreamMode),
      ss.mode = some m → (ensureStream c ss src hint rid sk).2.1.mode = some m) ∧
    (∀ (ss : SessionStreamState) (inc : Str) (hint : StreamMode),
      (mergeIncoming ss inc hint).1.mode = ss.mode) ∧
    (∀ (ss : SessionStreamState) (t sk : Str), (applyStreamText ss t sk).1.mode = ss.mode) ∧
    (∀ (c : StreamClient) (sk : Str) (rid : Option Str) (t : Str) (dAny : Option Str)
        (ss : SessionStreamState) (m : StreamMode),
      lookupStream c.sessionStreams sk = some ss → ss.source = some .agent →
      ss.started = true → ss.runId.isSome → ss.mode = some m →
      c.sessionKeyResolved = true → stripAnsi t ≠ [] →
      handleAgentAssistant c sk rid { text := some t, delta := dAny } =
        ({ c with sessionStreams := (setStream c.sessionStreams sk
            (processFragment ss (heartbeatSubst (stripAnsi t)) .cumulative sk).1) },
          (processFragment ss (heartbeatSubst (stripAnsi t)) .cumulative sk).2)) ∧
    (∀ (c : StreamClient) (sk : Str) (rid : Option Str) (t : Str)
        (ss : SessionStreamState) (m : StreamMode),
      lookupStream c.sessionStreams sk = some ss → ss.source = some .agent →
      ss.started = true → ss.runId.isSome → ss.mode = some m →
      c.sessionKeyResolved = true → stripAnsi t ≠ [] →
      handleAgentAssistant c sk rid { text := none, delta := some t } =
        ({ c with sessionStreams := (setStream c.sessionStreams sk
            (processFragment ss (heartbeatSubst (stripAnsi t)) .delta sk).1) },
          (processFragment ss (heartbeatSubst (stripAnsi t)) .delta sk).2)) := by
  refine ⟨?_, ?_, ?_, ?_, ?_⟩
  · intro c ss src hint rid sk m hm
    unfold ensureStream
    dsimp only
    split_ifs <;> simp_all
  · intro ss inc hint
    unfold mergeIncoming
    cases hint <;> dsimp only <;> split_ifs <;> rfl
  · intro ss t sk
    unfold applyStreamText
    dsimp only
    split_ifs <;> rfl
  · intro c sk rid t dAny ss m hl hsrc hst hrid hm hres hstrip
    have hget : getStream c.sessionStreams sk = (ss, c.sessionStreams) := by
      unfold getStream
      rw [hl]
    unfold handleAgentAssistant
    rw [hget]
    dsimp only
    rw [ensureStream_stable _ ss .agent _ rid sk hsrc hst hrid (by rw [hm]; rfl) hres]
    dsimp only
    rw [if_neg (by rw [hsrc]; simp), if_pos hstrip]
    rfl
  · intro c sk rid t ss m hl hsrc hst hrid hm hres hstrip
    have hget : getStream c.sessionStreams sk = (ss, c.sessionStreams) := by
      unfold getStream
      rw [hl]
    unfold handleAgentAssistant
    rw [hget]
    dsimp only
    rw [ensureStream_stable _ ss .agent _ rid sk hsrc hst hrid (by rw [hm]; rfl) hres]
    dsimp only
    rw [if_neg (by rw [hsrc]; simp)]
    rw [if_neg (by simp), if_pos hstrip]
    rfl

/-- Witness for C3 amended: a stream whose stored mode is delta still
merges a canonical-shaped fragment cumulatively. -/
theorem claim_mode_field_amended_witness :
    handleAgentAssistant
        { sessionStreams := [("k".data,
            { source := some .agent
              text := "ab".data
              mode := some .delta
              blockOffset := 0
              started := true
              runId := some "r".data })]
          parentSessionKeys := []
          defaultSessionKey := none
          sessionKeyResolved := true } "k".data none
        { text := some "b".data, delta := none } =
      ({ sessionStreams := (setStream [("k".data,
            { source := some .agent
              text := "ab".data
              mode := some .delta
              blockOffset := 0
              started := true
              runId := some "r".data })] "k".data
            (processFragment
              { source := some .agent
                text := "ab".data
                mode := some .delta
                blockOffset := 0
                started := true
                runId := some "r".data } (heartbeatSubst (stripAnsi "b".data))
              .cumulative "k".data).1)
         parentSessionKeys := []
         defaultSessionKey := none
         sessionKeyResolved := true },
        (processFragment
          { source := some .agent
            text := "ab".data
            mode := some .delta
            blockOffset := 0
            started := true
            runId := some "r".data } (heartbeatSubst (stripAnsi "b".data))
          .cumulative "k".data).2) :=
  claim_mode_field_amended.2.2.2.1
    { sessionStreams := [("k".data,
        { source := some .agent
          text := "ab".data
          mode := some .delta
          blockOffset := 0
          started := true
          runId := some "r".data })]
      parentSessionKeys := []
      defaultSessionKey := none
      sessionKeyResolved := true } "k".data none "b".data none
    { source := some .agent
      text := "ab".data
      mode := some .delta
      blockOffset := 0
      started := true
      runId := some "r".data } .delta (by decide) (by decide) (by decide) (by decide)
    (by decide) (by decide) (by decide)
